import Mathlib

/-!
# go-specgen: annotation parsing and type resolution, verified

A shallow embedding of the comment-annotation parser and the type resolver
of the go-specgen code base.  Go strings are embedded as `List Char`
(all inputs of interest are ASCII, so byte indexing and rune indexing
agree), Go maps that are only extended and looked up are embedded as
association lists in insertion order, and fallible Go functions returning
`(T, error)` are embedded as `Except` / `Option` values.  Recursive
procedures are written with an explicit fuel argument so that every
definition is a structural recursion the kernel can evaluate; supplying
enough fuel reproduces the Go behaviour exactly.
-/

set_option maxHeartbeats 1000000

namespace Specgen

/-- A Go string, embedded as its list of characters. -/
abbrev GoStr := List Char

/-- Association-list lookup (first match), embedding lookup in a Go map
whose keys are strings. -/
def lookupAssoc (k : GoStr) : List (GoStr × α) → Option α
  | [] => none
  | (k2, v) :: t => if k = k2 then some v else lookupAssoc k t

/-! ## Embedded pieces of the Go `strings` package

Only the exact operations the source uses, with Go's semantics. -/

/-- Characters Go's `strings.TrimSpace` removes (ASCII portion of
`unicode.IsSpace`). -/
def isGoSpace (c : Char) : Bool :=
  c = ' ' ∨ c = '\t' ∨ c = '\n' ∨ c = '\x0b' ∨ c = '\x0c' ∨ c = '\r'

/-- Embeds `strings.TrimSpace`. -/
def goTrim (s : GoStr) : GoStr :=
  ((s.dropWhile isGoSpace).reverse.dropWhile isGoSpace).reverse

/-- Embeds `strings.HasPrefix`. -/
def hasPrefixStr (s pre : GoStr) : Bool :=
  pre.isPrefixOf s

/-- Embeds `strings.TrimPrefix`. -/
def trimPrefixStr (s pre : GoStr) : GoStr :=
  if pre.isPrefixOf s then s.drop pre.length else s

/-- Embeds `strings.TrimSuffix`. -/
def trimSuffixStr (s suf : GoStr) : GoStr :=
  if suf.isSuffixOf s then s.take (s.length - suf.length) else s

/-- Embeds `strings.Index(s, string(c))` for a one-character needle.
Returns `none` for Go's `-1`. -/
def indexOfChar (c : Char) : GoStr → Option Nat
  | [] => none
  | x :: t =>
    if x = c then some 0
    else (indexOfChar c t).map (· + 1)

/-- Embeds `strings.LastIndex(s, string(c))` for a one-character needle. -/
def lastIndexOfChar (c : Char) (s : GoStr) : Option Nat :=
  match indexOfChar c s.reverse with
  | none => none
  | some i => some (s.length - 1 - i)

/-- Embeds `strings.IndexAny(s, " \t")`. -/
def indexAnySpaceTab : GoStr → Option Nat
  | [] => none
  | x :: t =>
    if x = ' ' ∨ x = '\t' then some 0
    else (indexAnySpaceTab t).map (· + 1)

/-- Embeds `strings.Contains(s, sub)`. -/
def containsSubstr (sub : GoStr) : GoStr → Bool
  | [] => sub.isEmpty
  | c :: t => sub.isPrefixOf (c :: t) || containsSubstr sub t

/-- Embeds `strings.Split(s, string(sep))` for a one-character separator. -/
def splitOnChar (sep : Char) : GoStr → List GoStr
  | [] => [[]]
  | c :: t =>
    if c = sep then [] :: splitOnChar sep t
    else
      match splitOnChar sep t with
      | h :: r => (c :: h) :: r
      | [] => [[c]]

/-- Embeds `strings.ReplaceAll(s, pat, rep)` specialised to a two-character
pattern `p1 p2` (every pattern the source passes to `ReplaceAll` has two
characters, except the internal placeholders, handled below).
Leftmost-first, non-overlapping, exactly as in Go. -/
def replaceAll2 (p1 p2 : Char) (rep : GoStr) : GoStr → GoStr
  | [] => []
  | [c] => [c]
  | c1 :: c2 :: t =>
    if c1 = p1 ∧ c2 = p2 then rep ++ replaceAll2 p1 p2 rep t
    else c1 :: replaceAll2 p1 p2 rep (c2 :: t)

/-- Embeds `strings.ReplaceAll(s, pat, rep)` specialised to a four-character
pattern (the `\x00BS\x00` / `\x00AT\x00` placeholders). -/
def replaceAll4 (p1 p2 p3 p4 : Char) (rep : GoStr) : GoStr → GoStr
  | c1 :: c2 :: c3 :: c4 :: t =>
    if c1 = p1 ∧ c2 = p2 ∧ c3 = p3 ∧ c4 = p4 then
      rep ++ replaceAll4 p1 p2 p3 p4 rep t
    else c1 :: replaceAll4 p1 p2 p3 p4 rep (c2 :: c3 :: c4 :: t)
  | s => s

/-! ## pkg/parser/escape.go -/

/-- The characters that may follow a backslash to form an escape
sequence: `{`, `}`, `@`, `\`. -/
def isEscChar (c : Char) : Bool :=
  c = '{' ∨ c = '}' ∨ c = '@' ∨ c = '\\'

/-- The placeholder `\x00BS\x00` protecting `\\` in `UnescapeValue`. -/
def bsPlaceholder : GoStr := ['\x00', 'B', 'S', '\x00']

/-- The placeholder `\x00AT\x00` protecting `\@` before splitting
(constant `atPlaceholder` in escape.go). -/
def atPlaceholder : GoStr := ['\x00', 'A', 'T', '\x00']

/-- Embeds `UnescapeValue` (escape.go): converts escape sequences to literal
characters, protecting `\\` with a placeholder first. -/
def unescapeValue (value : GoStr) : GoStr :=
  let r1 := replaceAll2 '\\' '\\' bsPlaceholder value
  let r2 := replaceAll2 '\\' '{' ['{'] r1
  let r3 := replaceAll2 '\\' '}' ['}'] r2
  let r4 := replaceAll2 '\\' '@' ['@'] r3
  replaceAll4 '\x00' 'B' 'S' '\x00' ['\\'] r4

/-- Depth contribution of one unescaped character. -/
def braceDelta (c : Char) : Int :=
  if c = '{' then 1 else if c = '}' then -1 else 0

/-- Core loop of `CountUnescapedBraces`: scans left to right, an escape
sequence consumes two characters and is ignored for depth purposes. -/
def countBracesList : GoStr → Int → Int
  | [], d => d
  | [c], d => d + braceDelta c
  | c1 :: c2 :: t, d =>
    if c1 = '\\' ∧ isEscChar c2 then countBracesList t d
    else countBracesList (c2 :: t) (d + braceDelta c1)

/-- Embeds `CountUnescapedBraces` (escape.go): final depth and whether it is
zero. -/
def countUnescapedBraces (content : GoStr) : Int × Bool :=
  let d := countBracesList content 0
  (d, d = 0)

/-- Embeds `ProtectEscapedAt` (escape.go): replaces `\@` with the placeholder. -/
def protectEscapedAt (content : GoStr) : GoStr :=
  replaceAll2 '\\' '@' atPlaceholder content

/-- Embeds `RestoreEscapedAt` (escape.go): restores the placeholder to `\@`. -/
def restoreEscapedAt (content : GoStr) : GoStr :=
  replaceAll4 '\x00' 'A' 'T' '\x00' ['\\', '@'] content

/-- Embeds `ContainsUnescapedBrace` (escape.go). -/
def containsUnescapedBrace : GoStr → Bool
  | [] => false
  | [c] => c = '{' ∨ c = '}'
  | c1 :: c2 :: t =>
    if c1 = '\\' ∧ isEscChar c2 then containsUnescapedBrace t
    else if c1 = '{' ∨ c1 = '}' then true
    else containsUnescapedBrace (c2 :: t)

/-- Embeds `StartsWithUnescapedAt` (escape.go). -/
def startsWithUnescapedAt (line : GoStr) : Bool :=
  match goTrim line with
  | [] => false
  | c :: _ => c = '@'

/-! ## pkg/schema/schema.go

`AnnotationType` and `SchemaNode`.  (Names ending in "...otation" are
shortened to `Ann` throughout.)  The `Parent` back-reference and the
optional custom `Validator` function of the Go struct play no role in the
functions embedded here and are omitted; `Children` is an association
list. -/

/-- The Go `AnnotationType` enumeration. -/
inductive AnnType where
  | blockAnn
  | valueAnn
  | flagAnn
  | markerAnn
  | referenceAnn
  | subCommand
deriving DecidableEq, Repr

/-- The Go `SchemaNode` struct (grammar definition). -/
inductive SchemaNode where
  | mk (name : GoStr) (atype : AnnType)
       (required hasMetadata repeatable supportsMultiline : Bool)
       (children : List (GoStr × SchemaNode))

/-- Field `Name`. -/
def SchemaNode.name : SchemaNode → GoStr
  | .mk n _ _ _ _ _ _ => n

/-- Field `Type`. -/
def SchemaNode.atype : SchemaNode → AnnType
  | .mk _ t _ _ _ _ _ => t

/-- Field `Required`. -/
def SchemaNode.required : SchemaNode → Bool
  | .mk _ _ r _ _ _ _ => r

/-- Field `HasMetadata`. -/
def SchemaNode.hasMetadata : SchemaNode → Bool
  | .mk _ _ _ h _ _ _ => h

/-- Field `Repeatable`. -/
def SchemaNode.repeatable : SchemaNode → Bool
  | .mk _ _ _ _ r _ _ => r

/-- Field `SupportsMultiline`. -/
def SchemaNode.supportsMultiline : SchemaNode → Bool
  | .mk _ _ _ _ _ s _ => s

/-- Field `Children`. -/
def SchemaNode.children : SchemaNode → List (GoStr × SchemaNode)
  | .mk _ _ _ _ _ _ c => c

/-- Embeds `SchemaNode.GetChild` (schema.go): child lookup by name.  Returns
`none` for Go's `nil`. -/
def SchemaNode.getChild (n : SchemaNode) (name : GoStr) : Option SchemaNode :=
  lookupAssoc name n.children

/-- Embeds `SchemaNode.HasChild` (schema.go). -/
def SchemaNode.hasChild (n : SchemaNode) (name : GoStr) : Bool :=
  (n.getChild name).isSome

/-- Embeds `SchemaNode.CanBeEmpty` (schema.go): a block can be empty iff it has
no required child. -/
def SchemaNode.canBeEmpty (n : SchemaNode) : Bool :=
  n.children.all (fun c => !c.2.required)

/-! ## pkg/schema/validator.go -/

/-- Core loop of `ValidateNoNestedBraces`: depth scan skipping escape
sequences; an unescaped `{` at depth 1 is a nested block. -/
def validateNoNestedBracesList : GoStr → Int → Except GoStr Unit
  | [], d =>
    if d ≠ 0 then .error "unbalanced braces in inline content".data
    else .ok ()
  | [c], d =>
    let d2 := d + braceDelta c
    if c = '{' ∧ d2 > 1 then
      .error "nested blocks cannot be inlined, use multi-line format".data
    else if d2 ≠ 0 then .error "unbalanced braces in inline content".data
    else .ok ()
  | c1 :: c2 :: t, d =>
    if c1 = '\\' ∧ isEscChar c2 then validateNoNestedBracesList t d
    else
      let d2 := d + braceDelta c1
      if c1 = '{' ∧ d2 > 1 then
        .error "nested blocks cannot be inlined, use multi-line format".data
      else validateNoNestedBracesList (c2 :: t) d2

/-- Embeds `ValidateNoNestedBraces` (validator.go): ensures inline content does
not contain nested unescaped braces. -/
def validateNoNestedBraces (content : GoStr) : Except GoStr Unit :=
  validateNoNestedBracesList content 0

/-! ## Block/line parser (`ParsedAnnotation` and friends)

The Go `ParsedAnnotation` struct is embedded as `ParsedAnn` (an
inductive, since the children maps are recursive).  `Children` and
`RepeatedChildren` are association lists in insertion order. -/

/-- The Go `ParsedAnnotation` struct.  Constructor argument order:
name, metadata, value, isFlag, children, repeatedChildren, lines. -/
inductive ParsedAnn where
  | mk (name metadata value : GoStr) (isFlag : Bool)
       (children : List (GoStr × ParsedAnn))
       (repeatedChildren : List (GoStr × List ParsedAnn))
       (lines : List GoStr)

/-- Field `Name`. -/
def ParsedAnn.name : ParsedAnn → GoStr
  | .mk n _ _ _ _ _ _ => n

/-- Field `Metadata`. -/
def ParsedAnn.metadata : ParsedAnn → GoStr
  | .mk _ m _ _ _ _ _ => m

/-- Field `Value`. -/
def ParsedAnn.value : ParsedAnn → GoStr
  | .mk _ _ v _ _ _ _ => v

/-- Field `IsFlag`. -/
def ParsedAnn.isFlag : ParsedAnn → Bool
  | .mk _ _ _ f _ _ _ => f

/-- Field `Children` (singleton children). -/
def ParsedAnn.children : ParsedAnn → List (GoStr × ParsedAnn)
  | .mk _ _ _ _ c _ _ => c

/-- Field `RepeatedChildren`. -/
def ParsedAnn.repeatedChildren : ParsedAnn → List (GoStr × List ParsedAnn)
  | .mk _ _ _ _ _ r _ => r

/-- Field `Lines`. -/
def ParsedAnn.lines : ParsedAnn → List GoStr
  | .mk _ _ _ _ _ _ l => l

/-- Set `Metadata`. -/
def ParsedAnn.setMetadata : ParsedAnn → GoStr → ParsedAnn
  | .mk n _ v f c r l, m => .mk n m v f c r l

/-- Set `Value`. -/
def ParsedAnn.setValue : ParsedAnn → GoStr → ParsedAnn
  | .mk n m _ f c r l, v => .mk n m v f c r l

/-- Set `IsFlag`. -/
def ParsedAnn.setIsFlag : ParsedAnn → Bool → ParsedAnn
  | .mk n m v _ c r l, f => .mk n m v f c r l

/-- Embeds `result.Children[name] = parsed` (the name is known to be absent). -/
def ParsedAnn.setChild : ParsedAnn → GoStr → ParsedAnn → ParsedAnn
  | .mk n m v f c r l, k, p => .mk n m v f (c ++ [(k, p)]) r l

/-- Embeds `result.RepeatedChildren[name] = append(result.RepeatedChildren[name], parsed)`. -/
def addToRepeated (k : GoStr) (p : ParsedAnn) :
    List (GoStr × List ParsedAnn) → List (GoStr × List ParsedAnn)
  | [] => [(k, [p])]
  | (k2, vs) :: t =>
    if k = k2 then (k2, vs ++ [p]) :: t else (k2, vs) :: addToRepeated k p t

/-- Append to a repeated-children entry, creating it if absent. -/
def ParsedAnn.addRepeated : ParsedAnn → GoStr → ParsedAnn → ParsedAnn
  | .mk n m v f c r l, k, p => .mk n m v f c (addToRepeated k p r) l

/-- Embeds `ParsedAnnotation.GetChildValue` (part of the parser's public
surface, used by the resolver). -/
def ParsedAnn.getChildValue (pa : ParsedAnn) (name : GoStr) : GoStr :=
  match lookupAssoc name pa.children with
  | some child => child.value
  | none => []

/-! ### findBlockOpener and brace accounting -/

/-- Loop of `findBlockOpener`, carrying the current index.  An escape
sequence is skipped (two characters); a space or tab immediately
followed by `{` yields the brace's index. -/
def findBlockOpenerAux : GoStr → Nat → Option Nat
  | c1 :: c2 :: rest, i =>
    if c1 = '\\' ∧ isEscChar c2 then findBlockOpenerAux rest (i + 2)
    else if (c1 = ' ' ∨ c1 = '\t') ∧ c2 = '{' then some (i + 1)
    else findBlockOpenerAux (c2 :: rest) (i + 1)
  | _, _ => none

/-- Embeds `findBlockOpener` (parser.go): position of a block delimiter `{`
immediately preceded by a space or tab; `none` for Go's `-1`.  Path
parameters like `{id}` have no space before the brace and are never
returned. -/
def findBlockOpener (line : GoStr) : Option Nat :=
  findBlockOpenerAux line 0

/-- Embeds `countBracesFromPosition` (parser.go): unescaped brace depth of
`line` starting from `startPos`. -/
def countBracesFromPosition (line : GoStr) (startPos : Nat) : Int :=
  countBracesList (line.drop startPos) 0

/-! ### ParseBracedBlock -/

/-- Loop of `ParseBracedBlock` over the lines after the opener line. -/
def parseBracedBlockLoop : List GoStr → Int → List GoStr → Except GoStr (List GoStr)
  | [], depth, content =>
    if depth ≠ 0 then .error "unbalanced braces".data else .ok content
  | l :: ls, depth, content =>
    let d := depth + (countUnescapedBraces l).1
    let t := goTrim l
    if d = 0 then .ok content
    else
      let content2 := if t ≠ [] then content ++ [t] else content
      if d < 0 then .error ("unbalanced braces at line: ".data ++ l)
      else parseBracedBlockLoop ls d content2

/-- Handling of the opener line of `ParseBracedBlock`: braces counted
from the opener position, content taken after the opening brace; a
depth of zero on this very line is the inline case. -/
def parseBracedBlockFirst (l : GoStr) (pos : Nat) (ls : List GoStr) :
    Except GoStr (List GoStr) :=
  let depth := countBracesFromPosition l pos
  let t := goTrim (l.drop (pos + 1))
  if depth = 0 then
    if t = [] then .ok []
    else
      let t2 := goTrim (trimSuffixStr t ['}'])
      .ok (if t2 = [] then [] else [t2])
  else
    let content := if t ≠ [] then [t] else []
    if depth < 0 then .error ("unbalanced braces at line: ".data ++ l)
    else parseBracedBlockLoop ls depth content

/-- Embeds `ParseBracedBlock` (parser.go): extracts the trimmed content lines
between the block braces; no opener found means no content (a marker or
flag). -/
def parseBracedBlockGo : List GoStr → Except GoStr (List GoStr)
  | [] => .ok []
  | l :: ls =>
    match findBlockOpener l with
    | some pos => parseBracedBlockFirst l pos ls
    | none => parseBracedBlockGo ls

/-! ### Metadata and annotation names -/

/-- Embeds `ExtractMetadata` (parser.go): strips the annotation name and takes
everything before the block opener. -/
def extractMetadata (line annName : GoStr) : GoStr :=
  let l2 := trimPrefixStr line annName
  match findBlockOpener l2 with
  | some pos => goTrim (l2.take (pos - 1))
  | none => goTrim l2

/-- Embeds `extractAnnotationName` (parser.go): the leading `@name` of a
trimmed line, up to a space, `{` or tab. -/
def extractAnnName (line : GoStr) : GoStr :=
  let l := goTrim line
  if hasPrefixStr l ['@'] then
    l.takeWhile (fun c => ¬(c = ' ' ∨ c = '{' ∨ c = '\t'))
  else []

/-- Loop of `isInlineContent`, counting unescaped `@`. -/
def isInlineContentAux : GoStr → Nat → Bool
  | [], _ => false
  | [c], cnt => c = '@' ∧ cnt ≥ 1
  | c1 :: c2 :: t, cnt =>
    if c1 = '\\' ∧ isEscChar c2 then isInlineContentAux t cnt
    else if c1 = '@' then
      if cnt + 1 > 1 then true else isInlineContentAux (c2 :: t) (cnt + 1)
    else isInlineContentAux (c2 :: t) cnt

/-- Embeds `isInlineContent` (parser.go): more than one unescaped `@` on a
single content line marks inline format. -/
def isInlineContent (content : GoStr) : Bool :=
  isInlineContentAux content 0

/-! ### Storing a parsed child

This block of code appears verbatim both at the end of `parseChildren`
and at the end of `parseInlineChildren`; it is factored into one
definition here. -/

/-- Store a parsed child in the result: repeatable children are
appended to `RepeatedChildren`; a second occurrence of a non-repeatable
child is an error; otherwise the child is set once in `Children`. -/
def storeChild (childNode : SchemaNode) (annName : GoStr) (parsed : ParsedAnn)
    (result : ParsedAnn) : Except GoStr ParsedAnn :=
  if childNode.repeatable then .ok (result.addRepeated annName parsed)
  else if (lookupAssoc annName result.children).isSome then
    .error (annName ++ " appears multiple times but is not repeatable".data)
  else .ok (result.setChild annName parsed)

/-! ### parseInlineChildren (inline.go) -/

/-- Loop of `parseInlineChildren` over the `@`-split parts.  The first
part (the text before the first `@`) is skipped when blank; each other
part is restored, trimmed, split into name and value at the first space
or tab, checked against the schema, and stored. -/
def parseInlineChildrenParts :
    List GoStr → Bool → SchemaNode → ParsedAnn → Except GoStr ParsedAnn
  | [], _, _, result => .ok result
  | part :: rest, isFirst, parent, result =>
    if isFirst ∧ goTrim part = [] then
      parseInlineChildrenParts rest false parent result
    else
      let p := goTrim (restoreEscapedAt part)
      if p = [] then parseInlineChildrenParts rest false parent result
      else
        let av : GoStr × GoStr :=
          match indexAnySpaceTab p with
          | none => ('@' :: p, ([] : GoStr))
          | some i => ('@' :: p.take i, goTrim (p.drop (i + 1)))
        match parent.getChild av.1 with
        | none =>
          .error ("unknown annotation ".data ++ av.1 ++ " in ".data ++ parent.name)
        | some childNode =>
          if childNode.atype = .subCommand ∧ ¬childNode.children.isEmpty ∧
              containsUnescapedBrace av.2 then
            .error ("sub-commands with sub-blocks cannot be inlined: ".data ++ av.1)
          else
            let uv := unescapeValue av.2
            let parsed : ParsedAnn :=
              ⟨av.1, if childNode.hasMetadata then uv else [], uv,
               childNode.atype = .flagAnn, [], [], []⟩
            match storeChild childNode av.1 parsed result with
            | .error e => .error e
            | .ok r2 => parseInlineChildrenParts rest false parent r2

/-- Embeds `parseInlineChildren` (inline.go): protects escaped `@`, splits the
content by `@`, and parses each part as a child annotation. -/
def parseInlineChildren (content : GoStr) (parent : SchemaNode)
    (result : ParsedAnn) : Except GoStr ParsedAnn :=
  if content = [] then .ok result
  else
    parseInlineChildrenParts (splitOnChar '@' (protectEscapedAt content))
      true parent result

/-! ### The mutually recursive block parser (parser.go)

`ParseAnnotationBlock` / `parseChildren`, with a fuel argument making
the mutual recursion structural.  With enough fuel (any amount at least
the total input size suffices) the fuel case is never reached. -/

/-- Consume lines while the child's own brace depth stays positive
(the inner loop of `parseChildren` for a child with a block opener).
Returns the collected lines and the remaining ones. -/
def collectBlockLines : List GoStr → Int → List GoStr × List GoStr
  | [], _ => ([], [])
  | l :: ls, depth =>
    if depth > 0 then
      let (c, r) := collectBlockLines ls (depth + (countUnescapedBraces l).1)
      (l :: c, r)
    else ([], l :: ls)

/-- Consume continuation lines of a multiline child until a recognized
sibling annotation begins (the other inner loop of `parseChildren`).
Blank lines are consumed and dropped. -/
def collectMultilineLines (parent : SchemaNode) :
    List GoStr → List GoStr × List GoStr
  | [] => ([], [])
  | l :: ls =>
    if goTrim l = [] then collectMultilineLines parent ls
    else if startsWithUnescapedAt l ∧ parent.hasChild (extractAnnName l) then
      ([], l :: ls)
    else
      let (c, r) := collectMultilineLines parent ls
      (l :: c, r)

/-- Append multiline continuation lines to a value (the continuation
loop inside the value case of `ParseAnnotationBlock`). -/
def appendContinuations (v : GoStr) : List GoStr → GoStr
  | [] => v
  | l :: ls =>
    let c := goTrim l
    appendContinuations (if c ≠ [] then v ++ '\n' :: c else v) ls

mutual

/-- Embeds `ParseAnnotationBlock` (parser.go): parses one annotation's raw
lines against its schema node, dispatching on the annotation kind. -/
def parseAnnBlock : Nat → List GoStr → GoStr → Option SchemaNode → Except GoStr ParsedAnn
  | 0, _, _, _ => .error "out of fuel".data
  | _ + 1, _, annName, none => .error ("unknown annotation: ".data ++ annName)
  | fuel + 1, lines, annName, some node =>
    let result0 : ParsedAnn := ⟨annName, [], [], false, [], [], lines⟩
    if node.atype = .markerAnn ∨ node.atype = .flagAnn then
      .ok (result0.setIsFlag true)
    else
      let result1 :=
        match lines with
        | [] => result0
        | first :: _ =>
          if node.hasMetadata then result0.setMetadata (extractMetadata first annName)
          else result0
      if node.atype = .valueAnn then
        match lines with
        | [] => .ok result1
        | first :: rest =>
          let v0 := goTrim (trimPrefixStr first annName)
          let v1 := if node.supportsMultiline then appendContinuations v0 rest else v0
          .ok (result1.setValue (unescapeValue v1))
      else if node.atype = .referenceAnn then
        match lines with
        | [] => .ok result1
        | first :: _ => .ok (result1.setValue (goTrim (trimPrefixStr first annName)))
      else if node.atype = .blockAnn ∨ node.atype = .subCommand then
        match parseBracedBlockGo lines with
        | .error e => .error ("failed to parse ".data ++ annName ++ ": ".data ++ e)
        | .ok content =>
          match content with
          | [] =>
            if ¬node.canBeEmpty then
              .error (annName ++ " cannot be empty (has required children)".data)
            else .ok result1
          | [c] =>
            if isInlineContent c then
              match parseInlineChildren c node result1 with
              | .error e =>
                .error ("failed to parse ".data ++ annName ++ " children: ".data ++ e)
              | .ok r => .ok r
            else
              match parseChildren fuel [c] node result1 with
              | .error e =>
                .error ("failed to parse ".data ++ annName ++ " children: ".data ++ e)
              | .ok r => .ok r
          | _ =>
            match parseChildren fuel content node result1 with
            | .error e =>
              .error ("failed to parse ".data ++ annName ++ " children: ".data ++ e)
            | .ok r => .ok r
      else .ok result1

/-- Embeds `parseChildren` (parser.go): parses the content lines of a block one
child annotation at a time, collecting each child's own lines first. -/
def parseChildren : Nat → List GoStr → SchemaNode → ParsedAnn → Except GoStr ParsedAnn
  | 0, _, _, _ => .error "out of fuel".data
  | _ + 1, [], _, result => .ok result
  | fuel + 1, line :: rest, parent, result =>
    if goTrim line = [] then parseChildren fuel rest parent result
    else if ¬hasPrefixStr line ['@'] then parseChildren fuel rest parent result
    else
      let annName := extractAnnName line
      if annName = [] then parseChildren fuel rest parent result
      else
        match parent.getChild annName with
        | none =>
          .error ("unknown annotation ".data ++ annName ++ " in ".data ++ parent.name)
        | some childNode =>
          let cr : List GoStr × List GoStr :=
            match findBlockOpener line with
            | some pos => collectBlockLines rest (countBracesFromPosition line pos)
            | none =>
              if childNode.supportsMultiline then collectMultilineLines parent rest
              else ([], rest)
          match parseAnnBlock fuel (line :: cr.1) annName (some childNode) with
          | .error e => .error e
          | .ok parsed =>
            match storeChild childNode annName parsed result with
            | .error e => .error e
            | .ok result2 => parseChildren fuel cr.2 parent result2

end

/-- Embeds `ParseInlineAnnotation` (inline.go): parses an inline annotation
after rejecting nested unescaped braces. -/
def parseInlineAnn (line annName : GoStr) (node : SchemaNode) :
    Except GoStr ParsedAnn :=
  match validateNoNestedBraces line with
  | .error e => .error e
  | .ok _ =>
    let result0 : ParsedAnn := ⟨annName, [], [], false, [], [], [line]⟩
    match indexOfChar '{' line, lastIndexOfChar '}' line with
    | some oi, some ci =>
      if oi ≥ ci then .error ("invalid inline format for ".data ++ annName)
      else
        let content := goTrim ((line.drop (oi + 1)).take (ci - oi - 1))
        if content = [] then
          if ¬node.canBeEmpty then
            .error (annName ++ " cannot be empty (has required children)".data)
          else .ok result0
        else parseInlineChildren content node result0
    | _, _ => .error ("invalid inline format for ".data ++ annName)

/-! ## The annotation schema tree (pkg/schema/schema.go)

The `@field` and `@endpoint` subtrees of `AnnotationSchema`, exactly as
declared in the source.  Constructor argument order:
name, type, required, hasMetadata, repeatable, supportsMultiline,
children. -/

/-- A value-kind leaf with all flags false. -/
def valueLeaf (n : GoStr) : SchemaNode := .mk n .valueAnn false false false false []

/-- A value-kind leaf with `SupportsMultiline`. -/
def multilineLeaf (n : GoStr) : SchemaNode := .mk n .valueAnn false false false true []

/-- A flag-kind leaf. -/
def flagLeaf (n : GoStr) : SchemaNode := .mk n .flagAnn false false false false []

/-- A reference-kind repeatable leaf. -/
def refRepeatLeaf (n : GoStr) : SchemaNode := .mk n .referenceAnn false false true false []

/-- The `@field` schema node of `AnnotationSchema`. -/
def fieldNode : SchemaNode :=
  .mk "@field".data .blockAnn false false false false
    [("@description".data, multilineLeaf "@description".data),
     ("@format".data, valueLeaf "@format".data),
     ("@example".data, valueLeaf "@example".data),
     ("@enum".data, valueLeaf "@enum".data),
     ("@default".data, valueLeaf "@default".data),
     ("@minimum".data, valueLeaf "@minimum".data),
     ("@maximum".data, valueLeaf "@maximum".data),
     ("@minLength".data, valueLeaf "@minLength".data),
     ("@maxLength".data, valueLeaf "@maxLength".data),
     ("@minItems".data, valueLeaf "@minItems".data),
     ("@maxItems".data, valueLeaf "@maxItems".data),
     ("@uniqueItems".data, flagLeaf "@uniqueItems".data),
     ("@pattern".data, valueLeaf "@pattern".data),
     ("@deprecated".data, flagLeaf "@deprecated".data)]

/-- The `@request` child of `@endpoint`. -/
def requestNode : SchemaNode :=
  .mk "@request".data .blockAnn false false false false
    [("@contentType".data, valueLeaf "@contentType".data),
     ("@body".data, .mk "@body".data .valueAnn false true false false []),
     ("@bind".data, valueLeaf "@bind".data)]

/-- The `@response` child of `@endpoint` (block, metadata-bearing,
repeatable). -/
def responseNode : SchemaNode :=
  .mk "@response".data .blockAnn false true true false
    [("@contentType".data, valueLeaf "@contentType".data),
     ("@body".data, .mk "@body".data .valueAnn false true false false []),
     ("@bind".data, valueLeaf "@bind".data),
     ("@description".data, multilineLeaf "@description".data),
     ("@header".data, .mk "@header".data .valueAnn false false true false [])]

/-- The `@endpoint` schema node of `AnnotationSchema` (block,
metadata-bearing). -/
def endpointNode : SchemaNode :=
  .mk "@endpoint".data .blockAnn false true false false
    [("@operationID".data, valueLeaf "@operationID".data),
     ("@summary".data, valueLeaf "@summary".data),
     ("@description".data, multilineLeaf "@description".data),
     ("@tag".data, refRepeatLeaf "@tag".data),
     ("@deprecated".data, flagLeaf "@deprecated".data),
     ("@auth".data, valueLeaf "@auth".data),
     ("@path".data, refRepeatLeaf "@path".data),
     ("@query".data, refRepeatLeaf "@query".data),
     ("@header".data, refRepeatLeaf "@header".data),
     ("@cookie".data, refRepeatLeaf "@cookie".data),
     ("@request".data, requestNode),
     ("@response".data, responseNode)]

/-! ## Concrete inputs from the specification's testable properties -/

/-- Embeds `Except.isOk` as a Boolean. -/
def exceptIsOk : Except ε α → Bool
  | .ok _ => true
  | .error _ => false

/-- The child names with their values, in insertion order. -/
def childSummaries (p : ParsedAnn) : List (GoStr × GoStr) :=
  p.children.map (fun x => (x.1, x.2.value))

/-- The repeated-child names with their lists of values. -/
def repSummaries (p : ParsedAnn) : List (GoStr × List GoStr) :=
  p.repeatedChildren.map (fun x => (x.1, x.2.map ParsedAnn.value))

/-- The inline form `@field { @description X @format email }`. -/
def c1InlineLines : List GoStr :=
  ["@field \x7b @description X @format email \x7d".data]

/-- The four-line multi-line equivalent. -/
def c1MultiLines : List GoStr :=
  ["@field \x7b".data, "@description X".data, "@format email".data, "\x7d".data]

/-- C1: parsing the inline form of a block annotation and parsing the
equivalent multi-line form yield `ParsedAnnotation` trees with the same
child names and the same child values (for both singleton and repeated
children); concretely, both parses of the `@field` example succeed and
produce the children `@description ↦ X` and `@format ↦ email`. -/
theorem c1_inline_multiline_equiv :
    (parseAnnBlock 50 c1InlineLines "@field".data (some fieldNode)).map
        (fun p => (childSummaries p, repSummaries p)) =
      (parseAnnBlock 50 c1MultiLines "@field".data (some fieldNode)).map
        (fun p => (childSummaries p, repSummaries p)) ∧
    (parseAnnBlock 50 c1InlineLines "@field".data (some fieldNode)).map
        (fun p => childSummaries p) =
      .ok [("@description".data, "X".data), ("@format".data, "email".data)] :=
  ⟨rfl, rfl⟩

/-- The nested inline endpoint line of C2. -/
def c2InlineLine : GoStr :=
  "@endpoint GET /users \x7b @response 200 \x7b @body User \x7d \x7d".data

/-- The equivalent multi-line endpoint block of C2. -/
def c2MultiLines : List GoStr :=
  ["@endpoint GET /users \x7b".data, "@response 200 \x7b".data,
   "@body User".data, "\x7d".data, "\x7d".data]

/-- C2: parsing `@endpoint GET /users { @response 200 { @body User } }`
as inline fails (a nested block inside inline format is forbidden),
while parsing the equivalent multi-line form succeeds — and the
multi-line parse really contains the nested `@response 200` block with
body `User`. -/
theorem c2_nested_inline_rejected :
    exceptIsOk (parseInlineAnn c2InlineLine "@endpoint".data endpointNode) = false ∧
    exceptIsOk (parseAnnBlock 50 c2MultiLines "@endpoint".data (some endpointNode)) = true ∧
    (parseAnnBlock 50 c2MultiLines "@endpoint".data (some endpointNode)).map
        (fun p => p.repeatedChildren.map
          (fun x => (x.1, x.2.map (fun q =>
            (q.metadata, q.getChildValue "@body".data))))) =
      .ok [("@response".data, [("200".data, "User".data)])] :=
  ⟨rfl, rfl, rfl⟩

/-! ## C3: the block-opener rule -/

/-- Position `n` of `cs` holds a `{` immediately preceded by a space or
tab (`n` is the index of the brace). -/
def openerAt (cs : GoStr) (n : Nat) : Prop :=
  ∃ m, n = m + 1 ∧ (cs[m]? = some ' ' ∨ cs[m]? = some '\t') ∧
    cs[m + 1]? = some '{'

/-- Escape characters are not space or tab. -/
theorem escChar_not_ws {c : Char} (h : isEscChar c = true) :
    c ≠ ' ' ∧ c ≠ '\t' := by
  simp only [isEscChar, decide_eq_true_eq] at h
  rcases h with h | h | h | h <;> subst h <;> exact ⟨by decide, by decide⟩

/-- Soundness and minimality of the `findBlockOpener` scan: a returned
index holds a whitespace-preceded `{` (relative to the scan offset) and
no smaller index does. -/
theorem findBlockOpenerAux_spec :
    ∀ (cs : GoStr) (j i : Nat), findBlockOpenerAux cs j = some i →
      j + 1 ≤ i ∧ openerAt cs (i - j) ∧ ∀ k, k < i - j → ¬ openerAt cs k
  | [], j, i => by simp [findBlockOpenerAux]
  | [c], j, i => by simp [findBlockOpenerAux]
  | c1 :: c2 :: rest, j, i => by
    rw [findBlockOpenerAux]
    split
    · rename_i hesc
      intro h
      obtain ⟨hle, ⟨m, hm, hws, hbr⟩, hmin⟩ :=
        findBlockOpenerAux_spec rest (j + 2) i h
      have hc1 : c1 = '\\' := hesc.1
      have hc2 := escChar_not_ws hesc.2
      refine ⟨by omega, ⟨m + 2, by omega, ?_, ?_⟩, ?_⟩
      · simpa using hws
      · simpa using hbr
      · rintro k hk ⟨m2, rfl, hws2, hbr2⟩
        match m2, hws2, hbr2 with
        | 0, hws2, _ =>
          simp only [List.getElem?_cons_zero, hc1] at hws2
          rcases hws2 with h2 | h2 <;> simp at h2
        | 1, hws2, _ =>
          simp only [List.getElem?_cons_succ, List.getElem?_cons_zero,
            Option.some.injEq] at hws2
          rcases hws2 with h2 | h2
          · exact hc2.1 h2
          · exact hc2.2 h2
        | (m3 + 2), hws2, hbr2 =>
          refine hmin (m3 + 1) (by omega) ⟨m3, rfl, ?_, ?_⟩
          · simpa using hws2
          · simpa using hbr2
    · split
      · rename_i hfound
        intro h
        have hi : i = j + 1 := by
          have := Option.some.inj h
          omega
        subst hi
        refine ⟨le_refl _, ?_, ?_⟩
        · have h1 : j + 1 - j = 1 := by omega
          rw [h1]
          refine ⟨0, rfl, ?_, ?_⟩
          · simp only [List.getElem?_cons_zero]
            rcases hfound.1 with hws | hws <;> simp [hws]
          · simp [hfound.2]
        · intro k hk hopk
          have h1 : j + 1 - j = 1 := by omega
          rw [h1] at hk
          obtain ⟨m2, rfl, _, _⟩ := hopk
          omega
      · rename_i hesc hfound
        intro h
        obtain ⟨hle, ⟨m, hm, hws, hbr⟩, hmin⟩ :=
          findBlockOpenerAux_spec (c2 :: rest) (j + 1) i h
        refine ⟨by omega, ⟨m + 1, by omega, ?_, ?_⟩, ?_⟩
        · simpa using hws
        · simpa using hbr
        · rintro k hk ⟨m2, rfl, hws2, hbr2⟩
          match m2, hws2, hbr2 with
          | 0, hws2, hbr2 =>
            simp only [List.getElem?_cons_zero, List.getElem?_cons_succ] at hws2 hbr2
            apply hfound
            constructor
            · rcases hws2 with h2 | h2 <;> simp_all
            · simp_all
          | (m3 + 1), hws2, hbr2 =>
            refine hmin (m3 + 1) (by omega) ⟨m3, rfl, ?_, ?_⟩
            · simpa using hws2
            · simpa using hbr2

/-- The endpoint line of C3, with in-path braces and a block opener. -/
def c3Line : GoStr :=
  "@endpoint GET /orgs/\x7borgId\x7d/projects/\x7bprojectId\x7d \x7b".data

/-- C3: the block opener is the first `{` immediately preceded by a
space or tab (escape sequences skipped); a `{` without preceding
whitespace is never returned.  For the line
`@endpoint GET /orgs/{orgId}/projects/{projectId} {` the extracted
metadata is exactly `GET /orgs/{orgId}/projects/{projectId}` (path
braces preserved) and the opener after it is still found, at index 49,
the final brace. -/
theorem c3_block_opener_rule :
    (∀ (l : GoStr) (i : Nat), findBlockOpener l = some i →
      openerAt l i ∧ ∀ k, k < i → ¬ openerAt l k) ∧
    extractMetadata c3Line "@endpoint".data =
      "GET /orgs/\x7borgId\x7d/projects/\x7bprojectId\x7d".data ∧
    findBlockOpener c3Line = some 49 ∧ c3Line.length = 50 := by
  refine ⟨?_, rfl, rfl, rfl⟩
  intro l i h
  obtain ⟨_, hop, hmin⟩ := findBlockOpenerAux_spec l 0 i h
  simpa using ⟨hop, hmin⟩

/-- Witness for C3's universally quantified part, at the concrete line:
index 49 holds a whitespace-preceded brace, and no earlier index does. -/
theorem c3_block_opener_rule_witness :
    openerAt c3Line 49 ∧ ∀ k, k < 49 → ¬ openerAt c3Line k :=
  c3_block_opener_rule.1 c3Line 49 rfl

/-! ## C4: UnescapeValue decodes each escape sequence exactly once -/

/-- Spec-side one-pass decoder, following the spec's words: scanning
left to right, each escape sequence (`\` followed by one of
`{ } @ \`) is decoded exactly once to its literal character; everything
else is copied. -/
def decodeEscapes : GoStr → GoStr
  | [] => []
  | [c] => [c]
  | c1 :: c2 :: t =>
    if c1 = '\\' ∧ isEscChar c2 then c2 :: decodeEscapes t
    else c1 :: decodeEscapes (c2 :: t)

/-- Unfolding: `replaceAll2` steps over a head that cannot start the
pattern. -/
theorem replaceAll2_cons_ne (p1 p2 c : Char) (rep x : GoStr) (h : c ≠ p1) :
    replaceAll2 p1 p2 rep (c :: x) = c :: replaceAll2 p1 p2 rep x := by
  cases x with
  | nil => simp [replaceAll2]
  | cons y ys => simp [replaceAll2, h]

/-- Unfolding: `replaceAll2` replaces a match at the head. -/
theorem replaceAll2_cons_match (p1 p2 : Char) (rep t : GoStr) :
    replaceAll2 p1 p2 rep (p1 :: p2 :: t) = rep ++ replaceAll2 p1 p2 rep t := by
  simp [replaceAll2]

/-- Unfolding: `replaceAll2` steps when the second character breaks the
match. -/
theorem replaceAll2_cons_mismatch2 (p1 p2 c2 : Char) (rep t : GoStr)
    (h : c2 ≠ p2) :
    replaceAll2 p1 p2 rep (p1 :: c2 :: t) =
      p1 :: replaceAll2 p1 p2 rep (c2 :: t) := by
  simp [replaceAll2, h]

/-- Unfolding: `replaceAll4` steps over a head that cannot start the
pattern. -/
theorem replaceAll4_cons_ne (p1 p2 p3 p4 c : Char) (rep x : GoStr)
    (h : c ≠ p1) :
    replaceAll4 p1 p2 p3 p4 rep (c :: x) =
      c :: replaceAll4 p1 p2 p3 p4 rep x := by
  match x with
  | [] => rfl
  | [a] => rfl
  | [a, b] => rfl
  | a :: b :: d :: ys => simp [replaceAll4, h]

/-- Unfolding: `replaceAll4` replaces a match at the head. -/
theorem replaceAll4_cons_match (p1 p2 p3 p4 : Char) (rep t : GoStr) :
    replaceAll4 p1 p2 p3 p4 rep (p1 :: p2 :: p3 :: p4 :: t) =
      rep ++ replaceAll4 p1 p2 p3 p4 rep t := by
  simp [replaceAll4]

/-- On inputs free of the `NUL` placeholder character, the four
sequential `ReplaceAll` passes of `UnescapeValue` (backslash protected
first) agree with the one-pass decoder: every escape sequence is
decoded exactly once. -/
theorem unescape_eq_decode : ∀ v : GoStr, '\x00' ∉ v →
    unescapeValue v = decodeEscapes v
  | [] => fun _ => by simp [unescapeValue, replaceAll2, replaceAll4, decodeEscapes]
  | [c] => fun _ => by simp [unescapeValue, replaceAll2, replaceAll4, decodeEscapes]
  | c1 :: c2 :: t => fun h => by
    have hc1 : c1 ≠ '\x00' := fun x => h (by simp [x])
    have hc2 : c2 ≠ '\x00' := fun x => h (by simp [x])
    have ht : '\x00' ∉ t := fun x => h (by simp [x])
    have ht2 : '\x00' ∉ c2 :: t := fun x => h (by simp at x; simp [x])
    have iht := unescape_eq_decode t ht
    have iht2 := unescape_eq_decode (c2 :: t) ht2
    simp only [unescapeValue] at iht iht2
    simp only [unescapeValue]
    by_cases hb : c1 = '\\'
    · subst hb
      by_cases he : isEscChar c2
      · have he2 := he
        simp only [isEscChar, decide_eq_true_eq] at he2
        have hd : decodeEscapes ('\\' :: c2 :: t) = c2 :: decodeEscapes t := by
          simp [decodeEscapes, he]
        rw [hd]
        rcases he2 with rfl | rfl | rfl | rfl
        · -- \{ → {
          rw [replaceAll2_cons_mismatch2 '\\' '\\' '{' bsPlaceholder t (by decide)]
          rw [replaceAll2_cons_ne '\\' '\\' '{' bsPlaceholder t (by decide)]
          rw [replaceAll2_cons_match '\\' '{' ['{']
            (replaceAll2 '\\' '\\' bsPlaceholder t)]
          rw [List.singleton_append]
          rw [replaceAll2_cons_ne '\\' '}' '{' ['}'] _ (by decide)]
          rw [replaceAll2_cons_ne '\\' '@' '{' ['@'] _ (by decide)]
          rw [replaceAll4_cons_ne '\x00' 'B' 'S' '\x00' '{' ['\\'] _ (by decide)]
          exact congrArg _ iht
        · -- \} → }
          rw [replaceAll2_cons_mismatch2 '\\' '\\' '}' bsPlaceholder t (by decide)]
          rw [replaceAll2_cons_ne '\\' '\\' '}' bsPlaceholder t (by decide)]
          rw [replaceAll2_cons_mismatch2 '\\' '{' '}' ['{']
            (replaceAll2 '\\' '\\' bsPlaceholder t) (by decide)]
          rw [replaceAll2_cons_ne '\\' '{' '}' ['{']
            (replaceAll2 '\\' '\\' bsPlaceholder t) (by decide)]
          rw [replaceAll2_cons_match '\\' '}' ['}']
            (replaceAll2 '\\' '{' ['{'] (replaceAll2 '\\' '\\' bsPlaceholder t))]
          rw [List.singleton_append]
          rw [replaceAll2_cons_ne '\\' '@' '}' ['@'] _ (by decide)]
          rw [replaceAll4_cons_ne '\x00' 'B' 'S' '\x00' '}' ['\\'] _ (by decide)]
          exact congrArg _ iht
        · -- \@ → @
          rw [replaceAll2_cons_mismatch2 '\\' '\\' '@' bsPlaceholder t (by decide)]
          rw [replaceAll2_cons_ne '\\' '\\' '@' bsPlaceholder t (by decide)]
          rw [replaceAll2_cons_mismatch2 '\\' '{' '@' ['{']
            (replaceAll2 '\\' '\\' bsPlaceholder t) (by decide)]
          rw [replaceAll2_cons_ne '\\' '{' '@' ['{']
            (replaceAll2 '\\' '\\' bsPlaceholder t) (by decide)]
          rw [replaceAll2_cons_mismatch2 '\\' '}' '@' ['}']
            (replaceAll2 '\\' '{' ['{'] (replaceAll2 '\\' '\\' bsPlaceholder t))
            (by decide)]
          rw [replaceAll2_cons_ne '\\' '}' '@' ['}']
            (replaceAll2 '\\' '{' ['{'] (replaceAll2 '\\' '\\' bsPlaceholder t))
            (by decide)]
          rw [replaceAll2_cons_match '\\' '@' ['@']
            (replaceAll2 '\\' '}' ['}']
              (replaceAll2 '\\' '{' ['{'] (replaceAll2 '\\' '\\' bsPlaceholder t)))]
          rw [List.singleton_append]
          rw [replaceAll4_cons_ne '\x00' 'B' 'S' '\x00' '@' ['\\'] _ (by decide)]
          exact congrArg _ iht
        · -- \\ → \
          rw [replaceAll2_cons_match '\\' '\\' bsPlaceholder t]
          simp only [bsPlaceholder, List.cons_append, List.nil_append]
          rw [replaceAll2_cons_ne '\\' '{' '\x00' ['{'] _ (by decide)]
          rw [replaceAll2_cons_ne '\\' '{' 'B' ['{'] _ (by decide)]
          rw [replaceAll2_cons_ne '\\' '{' 'S' ['{'] _ (by decide)]
          rw [replaceAll2_cons_ne '\\' '{' '\x00' ['{'] _ (by decide)]
          rw [replaceAll2_cons_ne '\\' '}' '\x00' ['}'] _ (by decide)]
          rw [replaceAll2_cons_ne '\\' '}' 'B' ['}'] _ (by decide)]
          rw [replaceAll2_cons_ne '\\' '}' 'S' ['}'] _ (by decide)]
          rw [replaceAll2_cons_ne '\\' '}' '\x00' ['}'] _ (by decide)]
          rw [replaceAll2_cons_ne '\\' '@' '\x00' ['@'] _ (by decide)]
          rw [replaceAll2_cons_ne '\\' '@' 'B' ['@'] _ (by decide)]
          rw [replaceAll2_cons_ne '\\' '@' 'S' ['@'] _ (by decide)]
          rw [replaceAll2_cons_ne '\\' '@' '\x00' ['@'] _ (by decide)]
          rw [replaceAll4_cons_match '\x00' 'B' 'S' '\x00' ['\\']
            (replaceAll2 '\\' '@' ['@']
              (replaceAll2 '\\' '}' ['}']
                (replaceAll2 '\\' '{' ['{']
                  (replaceAll2 '\\' '\\' ['\x00', 'B', 'S', '\x00'] t))))]
          rw [List.singleton_append]
          simp only [bsPlaceholder] at iht
          exact congrArg _ iht
      · -- backslash followed by a non-escape character
        have hne : c2 ≠ '\\' := fun x => he (by simp [x, isEscChar])
        have hne2 : c2 ≠ '{' := fun x => he (by simp [x, isEscChar])
        have hne3 : c2 ≠ '}' := fun x => he (by simp [x, isEscChar])
        have hne4 : c2 ≠ '@' := fun x => he (by simp [x, isEscChar])
        have hd : decodeEscapes ('\\' :: c2 :: t) =
            '\\' :: c2 :: decodeEscapes t := by
          simp only [decodeEscapes]
          rw [if_neg (fun hx => he hx.2)]
          cases t with
          | nil => simp [decodeEscapes]
          | cons d ds =>
            simp only [decodeEscapes]
            rw [if_neg (fun hx => hne hx.1)]
        rw [hd]
        rw [replaceAll2_cons_mismatch2 '\\' '\\' c2 bsPlaceholder t hne]
        rw [replaceAll2_cons_ne '\\' '\\' c2 bsPlaceholder t hne]
        rw [replaceAll2_cons_mismatch2 '\\' '{' c2 ['{']
          (replaceAll2 '\\' '\\' bsPlaceholder t) hne2]
        rw [replaceAll2_cons_ne '\\' '{' c2 ['{']
          (replaceAll2 '\\' '\\' bsPlaceholder t) hne]
        rw [replaceAll2_cons_mismatch2 '\\' '}' c2 ['}']
          (replaceAll2 '\\' '{' ['{'] (replaceAll2 '\\' '\\' bsPlaceholder t)) hne3]
        rw [replaceAll2_cons_ne '\\' '}' c2 ['}']
          (replaceAll2 '\\' '{' ['{'] (replaceAll2 '\\' '\\' bsPlaceholder t)) hne]
        rw [replaceAll2_cons_mismatch2 '\\' '@' c2 ['@']
          (replaceAll2 '\\' '}' ['}']
            (replaceAll2 '\\' '{' ['{'] (replaceAll2 '\\' '\\' bsPlaceholder t)))
          hne4]
        rw [replaceAll2_cons_ne '\\' '@' c2 ['@']
          (replaceAll2 '\\' '}' ['}']
            (replaceAll2 '\\' '{' ['{'] (replaceAll2 '\\' '\\' bsPlaceholder t)))
          hne]
        rw [replaceAll4_cons_ne '\x00' 'B' 'S' '\x00' '\\' ['\\'] _ (by decide)]
        rw [replaceAll4_cons_ne '\x00' 'B' 'S' '\x00' c2 ['\\'] _ hc2]
        exact congrArg _ (congrArg _ iht)
    · -- head is not a backslash: every pass steps over it
      have hd : decodeEscapes (c1 :: c2 :: t) = c1 :: decodeEscapes (c2 :: t) := by
        simp only [decodeEscapes]
        rw [if_neg (fun hx => hb hx.1)]
      rw [hd]
      rw [replaceAll2_cons_ne '\\' '\\' c1 bsPlaceholder (c2 :: t) hb]
      rw [replaceAll2_cons_ne '\\' '{' c1 ['{']
        (replaceAll2 '\\' '\\' bsPlaceholder (c2 :: t)) hb]
      rw [replaceAll2_cons_ne '\\' '}' c1 ['}']
        (replaceAll2 '\\' '{' ['{'] (replaceAll2 '\\' '\\' bsPlaceholder (c2 :: t)))
        hb]
      rw [replaceAll2_cons_ne '\\' '@' c1 ['@']
        (replaceAll2 '\\' '}' ['}']
          (replaceAll2 '\\' '{' ['{']
            (replaceAll2 '\\' '\\' bsPlaceholder (c2 :: t)))) hb]
      rw [replaceAll4_cons_ne '\x00' 'B' 'S' '\x00' c1 ['\\'] _ hc1]
      exact congrArg _ iht2

/-- C4: `UnescapeValue` replaces `\\` with a placeholder first, then
`\{`, `\}`, `\@`, and finally the placeholder with `\`; consequently on
placeholder-free inputs it equals the one-pass decoder (each escape
sequence decoded exactly once), and `\\{` decodes to a backslash
followed by a literal brace, never to an escaped brace. -/
theorem c4_unescape_order :
    (∀ v : GoStr, '\x00' ∉ v → unescapeValue v = decodeEscapes v) ∧
    unescapeValue ['\\', '\\', '\x7b'] = ['\\', '\x7b'] ∧
    decodeEscapes ['\\', '\\', '\x7b'] = ['\\', '\x7b'] :=
  ⟨unescape_eq_decode, rfl, rfl⟩

/-- Witness for C4's universally quantified part at a concrete
placeholder-free input containing every escape sequence. -/
theorem c4_unescape_order_witness :
    unescapeValue "a\\\x7b\\\x7d\\@\\\\b".data =
      decodeEscapes "a\\\x7b\\\x7d\\@\\\\b".data :=
  c4_unescape_order.1 "a\\\x7b\\\x7d\\@\\\\b".data (by decide)

/-! ## C5: the child-storing discipline -/

/-- The storing invariant: every singleton child was stored under a
schema node that is not repeatable, and every repeated child under one
that is. -/
def childInv (parent : SchemaNode) (p : ParsedAnn) : Prop :=
  (∀ n c, (n, c) ∈ p.children →
    ∃ sn, parent.getChild n = some sn ∧ sn.repeatable = false) ∧
  (∀ n cs, (n, cs) ∈ p.repeatedChildren →
    ∃ sn, parent.getChild n = some sn ∧ sn.repeatable = true)

/-- A successful association lookup is a membership. -/
theorem lookupAssoc_mem {α : Type} {k : GoStr} {v : α} :
    ∀ {l : List (GoStr × α)}, lookupAssoc k l = some v → (k, v) ∈ l
  | [], h => by simp [lookupAssoc] at h
  | (k2, v2) :: t, h => by
    rw [lookupAssoc] at h
    split at h
    · rename_i heq
      cases h
      exact heq ▸ List.mem_cons_self _ _
    · exact List.mem_cons_of_mem _ (lookupAssoc_mem h)

/-- Membership after `addToRepeated`: an entry either carries the added
key or restricts to an entry of the original list. -/
theorem addToRepeated_mem {k : GoStr} {p : ParsedAnn} :
    ∀ {r : List (GoStr × List ParsedAnn)} {n : GoStr} {cs : List ParsedAnn},
      (n, cs) ∈ addToRepeated k p r → n = k ∨ ∃ cs2, (n, cs2) ∈ r
  | [], n, cs => by
    intro h
    simp [addToRepeated] at h
    exact Or.inl h.1
  | (k2, vs) :: t, n, cs => by
    intro h
    rw [addToRepeated] at h
    split at h
    · rename_i heq
      rcases List.mem_cons.1 h with h2 | h2
      · left
        cases h2
        exact heq.symm
      · exact Or.inr ⟨cs, List.mem_cons_of_mem _ h2⟩
    · rcases List.mem_cons.1 h with h2 | h2
      · cases h2
        exact Or.inr ⟨vs, List.mem_cons_self _ _⟩
      · rcases addToRepeated_mem h2 with h3 | ⟨cs2, h3⟩
        · exact Or.inl h3
        · exact Or.inr ⟨cs2, List.mem_cons_of_mem _ h3⟩

/-- Embeds `storeChild` preserves the storing invariant whenever the stored
child's schema node is the parent's child for that name. -/
theorem storeChild_inv {parent childNode : SchemaNode} {annName : GoStr}
    {parsed result r2 : ParsedAnn}
    (hget : parent.getChild annName = some childNode)
    (hinv : childInv parent result)
    (h : storeChild childNode annName parsed result = .ok r2) :
    childInv parent r2 := by
  rw [storeChild] at h
  split at h
  · rename_i hrep
    cases h
    constructor
    · intro n c hm
      exact hinv.1 n c (by
        cases result with
        | mk nm md vl fl ch rp ln => exact hm)
    · intro n cs hm
      have hm2 : (n, cs) ∈ addToRepeated annName parsed result.repeatedChildren := by
        cases result with
        | mk nm md vl fl ch rp ln => exact hm
      rcases addToRepeated_mem hm2 with rfl | ⟨cs2, h3⟩
      · exact ⟨childNode, hget, hrep⟩
      · exact hinv.2 n cs2 h3
  · split at h
    · cases h
    · rename_i hrep hnone
      cases h
      constructor
      · intro n c hm
        have hm2 : (n, c) ∈ result.children ++ [(annName, parsed)] := by
          cases result with
          | mk nm md vl fl ch rp ln => exact hm
        rcases List.mem_append.1 hm2 with h2 | h2
        · exact hinv.1 n c h2
        · have : n = annName := by
            rcases List.mem_singleton.1 h2 with h3
            cases h3
            rfl
          subst this
          exact ⟨childNode, hget, by simpa using hrep⟩
      · intro n cs hm
        exact hinv.2 n cs (by
          cases result with
          | mk nm md vl fl ch rp ln => exact hm)

/-- Embeds `parseInlineChildrenParts` preserves the storing invariant. -/
theorem parseInlineChildrenParts_inv :
    ∀ (parts : List GoStr) (isFirst : Bool) (parent : SchemaNode)
      (init out : ParsedAnn), childInv parent init →
      parseInlineChildrenParts parts isFirst parent init = .ok out →
      childInv parent out
  | [], _, _, init, out => by
    intro hinv h
    rw [parseInlineChildrenParts] at h
    cases h
    exact hinv
  | part :: rest, isFirst, parent, init, out => by
    intro hinv h
    simp only [parseInlineChildrenParts] at h
    split at h
    · exact parseInlineChildrenParts_inv rest false parent init out hinv h
    · split at h
      · exact parseInlineChildrenParts_inv rest false parent init out hinv h
      · split at h
        · cases h
        · rename_i childNode hget
          split at h
          · cases h
          · split at h
            · cases h
            · rename_i r2 hstore
              exact parseInlineChildrenParts_inv rest false parent r2 out
                (storeChild_inv hget hinv hstore) h

/-- Embeds `parseInlineChildren` preserves the storing invariant. -/
theorem parseInlineChildren_inv (content : GoStr) (parent : SchemaNode)
    (init out : ParsedAnn) (hinv : childInv parent init)
    (h : parseInlineChildren content parent init = .ok out) :
    childInv parent out := by
  rw [parseInlineChildren] at h
  split at h
  · cases h
    exact hinv
  · exact parseInlineChildrenParts_inv _ _ _ _ _ hinv h

/-- Embeds `parseChildren` preserves the storing invariant, for every fuel. -/
theorem parseChildren_inv :
    ∀ (fuel : Nat) (lines : List GoStr) (parent : SchemaNode)
      (init out : ParsedAnn), childInv parent init →
      parseChildren fuel lines parent init = .ok out → childInv parent out := by
  intro fuel
  induction fuel with
  | zero =>
    intro lines parent init out _ h
    simp [parseChildren] at h
  | succ f ih =>
    intro lines parent init out hinv h
    match lines with
    | [] =>
      simp only [parseChildren] at h
      cases h
      exact hinv
    | line :: rest =>
      simp only [parseChildren] at h
      split at h
      · exact ih rest parent init out hinv h
      · split at h
        · exact ih rest parent init out hinv h
        · split at h
          · exact ih rest parent init out hinv h
          · split at h
            · cases h
            · rename_i childNode hget
              split at h
              · cases h
              · split at h
                · cases h
                · rename_i r2 hstore
                  exact ih _ parent r2 out (storeChild_inv hget hinv hstore) h

/-- C5: storing a parsed child: a repeatable child is appended to the
repeated-children list; a second occurrence of a non-repeatable child
name is a parse error; a single occurrence is set in the singleton
children map.  Both `parseChildren` and `parseInlineChildren` preserve
the resulting invariant, hence in every parse result a child name
appears in exactly one of `Children` and `RepeatedChildren`, determined
by the schema node's repeatable flag. -/
theorem c5_child_storing :
    (∀ (node : SchemaNode) (n : GoStr) (p res : ParsedAnn),
        node.repeatable = true →
        storeChild node n p res = .ok (res.addRepeated n p)) ∧
    (∀ (node : SchemaNode) (n : GoStr) (p res : ParsedAnn),
        node.repeatable = false →
        (lookupAssoc n res.children).isSome = true →
        storeChild node n p res =
          .error (n ++ " appears multiple times but is not repeatable".data)) ∧
    (∀ (node : SchemaNode) (n : GoStr) (p res : ParsedAnn),
        node.repeatable = false →
        (lookupAssoc n res.children).isSome = false →
        storeChild node n p res = .ok (res.setChild n p)) ∧
    (∀ (fuel : Nat) (lines : List GoStr) (parent : SchemaNode)
        (init out : ParsedAnn), childInv parent init →
        parseChildren fuel lines parent init = .ok out → childInv parent out) ∧
    (∀ (content : GoStr) (parent : SchemaNode) (init out : ParsedAnn),
        childInv parent init →
        parseInlineChildren content parent init = .ok out →
        childInv parent out) ∧
    (∀ (parent : SchemaNode) (p : ParsedAnn), childInv parent p → ∀ n,
        ¬((lookupAssoc n p.children).isSome = true ∧
          (lookupAssoc n p.repeatedChildren).isSome = true)) := by
  refine ⟨?_, ?_, ?_, parseChildren_inv, parseInlineChildren_inv, ?_⟩
  · intro node n p res hrep
    simp [storeChild, hrep]
  · intro node n p res hrep hsome
    simp [storeChild, hrep, hsome]
  · intro node n p res hrep hnone
    simp [storeChild, hrep, hnone]
  · intro parent p hinv n hboth
    obtain ⟨c, hc⟩ := Option.isSome_iff_exists.1 hboth.1
    obtain ⟨cs, hcs⟩ := Option.isSome_iff_exists.1 hboth.2
    obtain ⟨sn, hg, hr⟩ := hinv.1 n c (lookupAssoc_mem hc)
    obtain ⟨sn2, hg2, hr2⟩ := hinv.2 n cs (lookupAssoc_mem hcs)
    rw [hg] at hg2
    cases hg2
    rw [hr] at hr2
    exact Bool.false_ne_true hr2

/-- The empty parse result. -/
def emptyAnn : ParsedAnn := ⟨[], [], [], false, [], [], []⟩

/-- A fresh `@field` result, as built at the start of the block parse. -/
def c5InitAnn : ParsedAnn := ⟨"@field".data, [], [], false, [], [], c1MultiLines⟩

/-- The result of parsing the two `@field` content lines. -/
def c5Out : ParsedAnn :=
  match parseChildren 50 ["@description X".data, "@format email".data]
      fieldNode c5InitAnn with
  | .ok p => p
  | .error _ => emptyAnn

/-- Witness for C5 at a concrete parse: the storing invariant holds of
the parsed `@field` children. -/
theorem c5_child_storing_witness : childInv fieldNode c5Out :=
  c5_child_storing.2.2.2.1 50
    ["@description X".data, "@format email".data] fieldNode c5InitAnn c5Out
    ⟨fun n c hm => absurd hm (by simp [c5InitAnn, ParsedAnn.children]),
     fun n cs hm => absurd hm (by simp [c5InitAnn, ParsedAnn.repeatedChildren])⟩
    rfl

/-! ## Struct tags (modelling `reflect.StructTag.Get`)

The resolver receives each field's raw struct-tag string and reads it
through the Go standard library's `reflect.StructTag.Get`.  The
standard library is a collaborator, embedded here following its
documented conventional format: space-separated `key:"value"` pairs. -/

/-- Characters allowed inside a tag key (printable, not `:`/quote). -/
def tagNamePred (c : Char) : Bool :=
  c.toNat > 32 ∧ c ≠ ':' ∧ c ≠ '"' ∧ c.toNat ≠ 0x7f

/-- Scan a quoted tag value: the content up to the closing quote (a
backslash skips the next character) and the remainder after it. -/
def scanQuotedAux : GoStr → Option (GoStr × GoStr)
  | [] => none
  | '"' :: r => some ([], r)
  | '\\' :: c :: r => (scanQuotedAux r).map (fun p => ('\\' :: c :: p.1, p.2))
  | c :: r => (scanQuotedAux r).map (fun p => (c :: p.1, p.2))

/-- Undo simple backslash escapes inside a quoted tag value (modelling
`strconv.Unquote` on the escape-free tags this code base uses). -/
def unquoteInner : GoStr → GoStr
  | [] => []
  | '\\' :: c :: r => c :: unquoteInner r
  | c :: r => c :: unquoteInner r

/-- Loop of `reflect.StructTag.Get`: skip spaces, scan `key`, expect
`:"`, scan the quoted value, return it when the key matches. -/
def structTagGetAux : Nat → GoStr → GoStr → GoStr
  | 0, _, _ => []
  | f + 1, tag, key =>
    let tag1 := tag.dropWhile (· = ' ')
    if tag1 = [] then []
    else
      let nm := tag1.takeWhile tagNamePred
      let rest := tag1.dropWhile tagNamePred
      if nm = [] then []
      else
        match rest with
        | ':' :: '"' :: r2 =>
          (match scanQuotedAux r2 with
           | none => []
           | some (content, r3) =>
             if key = nm then unquoteInner content
             else structTagGetAux f r3 key)
        | _ => []

/-- Embeds `reflect.StructTag.Get` (modelled): the value of `key` in the raw
tag string, empty when absent. -/
def structTagGet (tag key : GoStr) : GoStr :=
  structTagGetAux (tag.length + 1) tag key

/-- Embeds `extractTagName` (validator.go): a field name from a specific tag
key, with options after the comma removed. -/
def extractTagName (tag key : GoStr) : GoStr :=
  let value := structTagGet tag key
  if value = [] then []
  else (splitOnChar ',' value).headD []

/-- Embeds `SupportedTags` (validator.go): tags checked for field names, in
fallback order. -/
def supportedTags : List GoStr := ["json".data, "xml".data]

/-- The `for tagKey := range SupportedTags` loop of
`resolveFieldNameFromTag`. -/
def resolveFieldNameFromTagLoop (tag : GoStr) : List GoStr → GoStr → GoStr
  | [], goFieldName => goFieldName
  | tagKey :: restKeys, goFieldName =>
    let tagValue := structTagGet tag tagKey
    if tagValue = [] then resolveFieldNameFromTagLoop tag restKeys goFieldName
    else if tagValue = "-".data then []
    else
      let nm :=
        match indexOfChar ',' tagValue with
        | some idx => tagValue.take idx
        | none => tagValue
      if nm = [] then resolveFieldNameFromTagLoop tag restKeys goFieldName
      else nm

/-- Embeds `resolveFieldNameFromTag` (validator.go): the field name via the
fallback chain json → xml → Go field name; `-` omits the field (empty
result), an empty name part continues the chain. -/
def resolveFieldNameFromTag (tag goFieldName : GoStr) : GoStr :=
  resolveFieldNameFromTagLoop tag supportedTags goFieldName

/-- Embeds `Exported()` of a Go struct field: the name starts with an upper
case letter. -/
def isExportedName : GoStr → Bool
  | [] => false
  | c :: _ => c.isUpper

/-! ## The host type system (go/types, as consumed by the resolver)

The resolver only inspects the structural shape of types: pointer,
slice, map, named (with package path, name and underlying type), alias,
struct (ordered fields with raw tags), basic kind, interface.  Other
shapes (arrays, channels, …) fall into `otherT` and reach the default
branches, exactly as in the source. -/

/-- The basic kinds the resolver's switch distinguishes. -/
inductive BasicKind where
  | bool | int | int8 | int16 | int32 | int64
  | uint | uint8 | uint16 | uint32 | uint64
  | float32 | float64 | string | otherBasic
deriving DecidableEq, Repr

/-- A Go type shape.  `structT` fields are (name, raw tag, type). -/
inductive GoType where
  | pointer (elem : GoType)
  | slice (elem : GoType)
  | mapType (key elem : GoType)
  | named (pkgPath tname : GoStr) (underlying : GoType)
  | alias (rhs : GoType)
  | structT (fields : List (GoStr × GoStr × GoType))
  | basic (k : BasicKind)
  | interfaceT
  | otherT

/-- Rendering of a basic kind (`types.Basic.String`). -/
def BasicKind.render : BasicKind → GoStr
  | .bool => "bool".data
  | .int => "int".data
  | .int8 => "int8".data
  | .int16 => "int16".data
  | .int32 => "int32".data
  | .int64 => "int64".data
  | .uint => "uint".data
  | .uint8 => "uint8".data
  | .uint16 => "uint16".data
  | .uint32 => "uint32".data
  | .uint64 => "uint64".data
  | .float32 => "float32".data
  | .float64 => "float64".data
  | .string => "string".data
  | .otherBasic => "basic".data

/-- Embeds `types.Type.String()`, kept only as an opaque label stored in
`ResolvedField.GoType` (no code inspects it). -/
def GoType.typeString : GoType → GoStr
  | .pointer e => '*' :: e.typeString
  | .slice e => '[' :: ']' :: e.typeString
  | .mapType k v => "map[".data ++ k.typeString ++ "]".data ++ v.typeString
  | .named p n _ => if p = [] then n else p ++ ".".data ++ n
  | .alias r => r.typeString
  | .structT _ => "struct".data
  | .basic k => k.render
  | .interfaceT => "interface".data
  | .otherT => "other".data

/-- The Go `TypeInfo` struct (validator.go). -/
structure TypeInfo where
  openAPIType : GoStr := []
  format : GoStr := []
  isArray : Bool := false
  itemsType : GoStr := []
  isNullable : Bool := false
  isAnyValue : Bool := false
deriving DecidableEq, Repr

/-- The `specialTypes` table (validator.go): standard-library struct
types treated as opaque scalars, as (OpenAPI type, format). -/
def resolveSpecialType (pkgPath tname : GoStr) : Option (GoStr × GoStr) :=
  if pkgPath = "time".data ∧ tname = "Time".data then
    some ("string".data, "date-time".data)
  else if pkgPath = "net/url".data ∧ tname = "URL".data then
    some ("string".data, "uri".data)
  else if pkgPath = "net/netip".data ∧
      (tname = "Addr".data ∨ tname = "AddrPort".data ∨ tname = "Prefix".data) then
    some ("string".data, [])
  else if pkgPath = "math/big".data ∧
      (tname = "Int".data ∨ tname = "Float".data ∨ tname = "Rat".data) then
    some ("string".data, [])
  else if pkgPath = "regexp".data ∧ tname = "Regexp".data then
    some ("string".data, [])
  else none

/-- Embeds `isSpecialType` (validator.go). -/
def isSpecialType (pkgPath tname : GoStr) : Bool :=
  (resolveSpecialType pkgPath tname).isSome

mutual

/-- Embeds `resolveType` (validator.go): resolves a Go type to OpenAPI type
information.  A pointer wrapper is unwrapped first and sets
`IsNullable` on the information record under construction; the
`named`/`alias` branches return a fresh recursive resolution (the Go
code returns `r.resolveType(...)` there, discarding the record).  The
per-resolver memoisation cache, which only avoids recomputation, is
omitted. -/
def resolveType : Nat → GoType → TypeInfo
  | 0, _ => {}
  | f + 1, .pointer e => resolveTypeAfter f true e
  | f + 1, t => resolveTypeAfter f false t

/-- The branches of `resolveType` after the pointer unwrap; `nul` is
the `IsNullable` flag already recorded on the information record. -/
def resolveTypeAfter : Nat → Bool → GoType → TypeInfo
  | 0, _, _ => {}
  | f + 1, nul, .slice e =>
    let elemInfo := resolveType f e
    { isNullable := nul, isArray := true, itemsType := elemInfo.openAPIType,
      openAPIType := "array".data }
  | f + 1, _, .alias r => resolveType f r
  | f + 1, nul, .named pkgPath tname u =>
    (match resolveSpecialType pkgPath tname with
     | some sp => { openAPIType := sp.1, format := sp.2, isNullable := nul }
     | none => resolveType f u)
  | _ + 1, nul, .basic k =>
    (match k with
     | .bool => { openAPIType := "boolean".data, isNullable := nul }
     | .int => { openAPIType := "integer".data, isNullable := nul }
     | .int8 => { openAPIType := "integer".data, isNullable := nul }
     | .int16 => { openAPIType := "integer".data, isNullable := nul }
     | .int32 =>
       { openAPIType := "integer".data, format := "int32".data, isNullable := nul }
     | .int64 =>
       { openAPIType := "integer".data, format := "int64".data, isNullable := nul }
     | .uint => { openAPIType := "integer".data, isNullable := nul }
     | .uint8 => { openAPIType := "integer".data, isNullable := nul }
     | .uint16 => { openAPIType := "integer".data, isNullable := nul }
     | .uint32 => { openAPIType := "integer".data, isNullable := nul }
     | .uint64 => { openAPIType := "integer".data, isNullable := nul }
     | .float32 =>
       { openAPIType := "number".data, format := "float".data, isNullable := nul }
     | .float64 =>
       { openAPIType := "number".data, format := "double".data, isNullable := nul }
     | .string => { openAPIType := "string".data, isNullable := nul }
     | .otherBasic => { openAPIType := "string".data, isNullable := nul })
  | _ + 1, nul, .interfaceT => { isAnyValue := true, isNullable := nul }
  | _ + 1, nul, _ => { openAPIType := "string".data, isNullable := nul }

end

/-- Embeds `checkUnresolvedStruct` (validator.go): the name of a named,
non-special struct type not declared as a `@schema`, reached through at
most one pointer and any slice/map/underlying chain; `none` when the
field is not such a reference (the Go code then leaves the resolved
field untouched). -/
def checkUnresolvedStruct : Nat → GoType → List GoStr → Option GoStr
  | 0, _, _ => none
  | f + 1, t, schemaNames =>
    let t1 := match t with | .pointer e => e | _ => t
    match t1 with
    | .slice e => checkUnresolvedStruct f e schemaNames
    | .mapType _ v => checkUnresolvedStruct f v schemaNames
    | .named pkgPath tname u =>
      if isSpecialType pkgPath tname then none
      else
        (match u with
         | .structT _ => if schemaNames.contains tname then none else some tname
         | _ => checkUnresolvedStruct f u schemaNames)
    | _ => none

/-! ## ResolvedField and field resolution (validator.go / resolver types)

`ResolvedField` is recursive (inline fields of anonymous structs), so
the scalar fields live in `RFieldBase` and an inductive wrapper carries
the three recursive lists.  Go's `float64` constraint values are only
stored, never computed with; they are carried as rationals. -/

/-- The scalar fields of the Go `ResolvedField` struct. -/
structure RFieldBase where
  name : GoStr := []
  goName : GoStr := []
  description : GoStr := []
  required : Bool := false
  nullable : Bool := false
  deprecated : Bool := false
  goType : GoStr := []
  openAPIType : GoStr := []
  format : GoStr := []
  isArray : Bool := false
  itemsType : GoStr := []
  isMap : Bool := false
  isAnyValue : Bool := false
  isUnresolvedStruct : Bool := false
  unresolvedTypeName : GoStr := []
  enum : List GoStr := []
  defaultVal : GoStr := []
  exampleVal : GoStr := []
  pattern : GoStr := []
  minLength : Option Int := none
  maxLength : Option Int := none
  minItems : Option Int := none
  maxItems : Option Int := none
  uniqueItems : Bool := false
  minimum : Option ℚ := none
  maximum : Option ℚ := none
deriving DecidableEq

/-- The Go `ResolvedField` struct: scalars plus `InlineFields`,
`ItemsInlineFields` and `MapValueInlineFields`. -/
inductive ResolvedField where
  | mk (base : RFieldBase)
       (inlineFields itemsInlineFields mapValueInlineFields : List ResolvedField)

/-- The scalar part. -/
def ResolvedField.base : ResolvedField → RFieldBase
  | .mk b _ _ _ => b

/-- Field `InlineFields`. -/
def ResolvedField.inlineFields : ResolvedField → List ResolvedField
  | .mk _ i _ _ => i

/-- Field `ItemsInlineFields`. -/
def ResolvedField.itemsInlineFields : ResolvedField → List ResolvedField
  | .mk _ _ i _ => i

/-- Field `MapValueInlineFields`. -/
def ResolvedField.mapValueInlineFields : ResolvedField → List ResolvedField
  | .mk _ _ _ m => m

/-- Update the scalar part. -/
def ResolvedField.mapBase (f : RFieldBase → RFieldBase) : ResolvedField → ResolvedField
  | .mk b i j m => .mk (f b) i j m

/-- The Go `parser.Field` struct: annotation-sourced field metadata. -/
structure FieldAnn where
  name : GoStr := []
  goName : GoStr := []
  goType : GoStr := []
  required : Bool := false
  nullable : Bool := false
  description : GoStr := []
  format : GoStr := []
  exampleVal : GoStr := []
  enum : List GoStr := []
  defaultVal : GoStr := []
  minimum : Option ℚ := none
  maximum : Option ℚ := none
  minLength : Option Int := none
  maxLength : Option Int := none
  minItems : Option Int := none
  maxItems : Option Int := none
  uniqueItems : Bool := false
  pattern : GoStr := []
  deprecated : Bool := false
deriving DecidableEq

/-- The `if annotation != nil` override block of `resolveField`: each
annotation-sourced value overrides the resolved one when present;
`Deprecated` is copied unconditionally.  `Required` is never touched. -/
def applyOverridesA (a : FieldAnn) (r : ResolvedField) : ResolvedField :=
  r.mapBase (fun b =>
    { b with
      description := if a.description ≠ [] then a.description else b.description
      format := if a.format ≠ [] then a.format else b.format
      exampleVal := if a.exampleVal ≠ [] then a.exampleVal else b.exampleVal
      defaultVal := if a.defaultVal ≠ [] then a.defaultVal else b.defaultVal
      pattern := if a.pattern ≠ [] then a.pattern else b.pattern
      enum := if ¬a.enum.isEmpty then a.enum else b.enum
      minLength := if a.minLength.isSome then a.minLength else b.minLength
      maxLength := if a.maxLength.isSome then a.maxLength else b.maxLength
      minItems := if a.minItems.isSome then a.minItems else b.minItems
      maxItems := if a.maxItems.isSome then a.maxItems else b.maxItems
      uniqueItems := if a.uniqueItems then true else b.uniqueItems
      minimum := if a.minimum.isSome then a.minimum else b.minimum
      maximum := if a.maximum.isSome then a.maximum else b.maximum
      deprecated := a.deprecated })

/-- The override block of `resolveFieldWithParamType`: as above but
`Nullable` and `Deprecated` are only set to true when the annotation
says so.  `Required` is never touched. -/
def applyOverridesB (a : FieldAnn) (r : ResolvedField) : ResolvedField :=
  r.mapBase (fun b =>
    { b with
      description := if a.description ≠ [] then a.description else b.description
      format := if a.format ≠ [] then a.format else b.format
      exampleVal := if a.exampleVal ≠ [] then a.exampleVal else b.exampleVal
      defaultVal := if a.defaultVal ≠ [] then a.defaultVal else b.defaultVal
      pattern := if a.pattern ≠ [] then a.pattern else b.pattern
      enum := if ¬a.enum.isEmpty then a.enum else b.enum
      minLength := if a.minLength.isSome then a.minLength else b.minLength
      maxLength := if a.maxLength.isSome then a.maxLength else b.maxLength
      minItems := if a.minItems.isSome then a.minItems else b.minItems
      maxItems := if a.maxItems.isSome then a.maxItems else b.maxItems
      uniqueItems := if a.uniqueItems then true else b.uniqueItems
      minimum := if a.minimum.isSome then a.minimum else b.minimum
      maximum := if a.maximum.isSome then a.maximum else b.maximum
      nullable := if a.nullable then true else b.nullable
      deprecated := if a.deprecated then true else b.deprecated })

mutual

/-- Embeds `resolveAnonymousStruct` (validator.go): when the (pointer-
unwrapped) type is an unnamed struct, its fields resolved inline;
`none` otherwise. -/
def resolveAnonymousStruct : Nat → GoType → List GoStr → Option (List ResolvedField)
  | 0, _, _ => none
  | f + 1, t, schemaNames =>
    let t1 := match t with | .pointer e => e | _ => t
    match t1 with
    | .structT fields => some (resolveAnonFields f fields schemaNames)
    | _ => none

/-- The per-field loop of `resolveAnonymousStruct`. -/
def resolveAnonFields :
    Nat → List (GoStr × GoStr × GoType) → List GoStr → List ResolvedField
  | 0, _, _ => []
  | _ + 1, [], _ => []
  | f + 1, (fname, tag, ftype) :: restFields, schemaNames =>
    let restResolved := resolveAnonFields f restFields schemaNames
    if ¬isExportedName fname then restResolved
    else
      let fieldName := resolveFieldNameFromTag tag fname
      if fieldName = [] then restResolved
      else
        let base0 : RFieldBase :=
          { name := fieldName, goName := fname, goType := ftype.typeString,
            required := !containsSubstr "omitempty".data tag }
        (match resolveAnonymousStruct f ftype schemaNames with
         | some nested =>
           ResolvedField.mk { base0 with openAPIType := "object".data } nested [] []
         | none =>
           match resolveSliceOfAnonymousStruct f ftype schemaNames with
           | some itemFields =>
             ResolvedField.mk
               { base0 with
                 isArray := true
                 openAPIType := "array".data
                 itemsType := "object".data } [] itemFields []
           | none =>
             match resolveMapOfAnonymousStruct f ftype schemaNames with
             | some mapFields =>
               ResolvedField.mk
                 { base0 with isMap := true, openAPIType := "object".data }
                 [] [] mapFields
             | none =>
               let unres := checkUnresolvedStruct f ftype schemaNames
               let ti := resolveType f ftype
               ResolvedField.mk
                 { base0 with
                   isUnresolvedStruct := unres.isSome,
                   unresolvedTypeName := unres.getD [],
                   openAPIType := ti.openAPIType, format := ti.format,
                   isArray := ti.isArray, itemsType := ti.itemsType,
                   nullable := ti.isNullable, isAnyValue := ti.isAnyValue }
                 [] [] []) :: restResolved

/-- Embeds `resolveSliceOfAnonymousStruct` (validator.go). -/
def resolveSliceOfAnonymousStruct :
    Nat → GoType → List GoStr → Option (List ResolvedField)
  | 0, _, _ => none
  | f + 1, t, schemaNames =>
    let t1 := match t with | .pointer e => e | _ => t
    match t1 with
    | .slice e => resolveAnonymousStruct f e schemaNames
    | _ => none

/-- Embeds `resolveMapOfAnonymousStruct` (validator.go). -/
def resolveMapOfAnonymousStruct :
    Nat → GoType → List GoStr → Option (List ResolvedField)
  | 0, _, _ => none
  | f + 1, t, schemaNames =>
    let t1 := match t with | .pointer e => e | _ => t
    match t1 with
    | .mapType _ v => resolveAnonymousStruct f v schemaNames
    | _ => none

end

/-- Embeds `resolveField` (validator.go): resolves a single struct field given
its name, type and raw tag.  Unexported fields and fields whose
resolved name is empty are skipped (`none`).  Exactly one of the
anonymous-struct branches or the general branch (unresolved-struct
check plus `resolveType`) fills the classification. -/
def resolveField (fuel : Nat) (fname : GoStr) (ftype : GoType) (tag : GoStr)
    (ann : Option FieldAnn) (schemaNames : List GoStr) : Option ResolvedField :=
  if ¬isExportedName fname then none
  else
    let fieldName := resolveFieldNameFromTag tag fname
    if fieldName = [] then none
    else
      let base1 : RFieldBase :=
        { name := fieldName, goName := fname, goType := ftype.typeString,
          required := !containsSubstr "omitempty".data tag }
      let r0 : ResolvedField :=
        match resolveAnonymousStruct fuel ftype schemaNames with
        | some inl =>
          ResolvedField.mk { base1 with openAPIType := "object".data } inl [] []
        | none =>
          match resolveSliceOfAnonymousStruct fuel ftype schemaNames with
          | some itf =>
            ResolvedField.mk
              { base1 with
                isArray := true
                openAPIType := "array".data
                itemsType := "object".data } [] itf []
          | none =>
            match resolveMapOfAnonymousStruct fuel ftype schemaNames with
            | some mvf =>
              ResolvedField.mk
                { base1 with isMap := true, openAPIType := "object".data } [] [] mvf
            | none =>
              let unres := checkUnresolvedStruct fuel ftype schemaNames
              let ti := resolveType fuel ftype
              ResolvedField.mk
                { base1 with
                  isUnresolvedStruct := unres.isSome,
                  unresolvedTypeName := unres.getD [],
                  openAPIType := ti.openAPIType, format := ti.format,
                  isArray := ti.isArray, itemsType := ti.itemsType,
                  nullable := ti.isNullable, isAnyValue := ti.isAnyValue } [] [] []
      some (match ann with
            | none => r0
            | some a => applyOverridesA a r0)

/-- Embeds `resolveFieldWithParamType` (validator.go): like `resolveField` but
the name comes from the parameter-kind tag (`path`/`query`/`header`/
`cookie`), with `-` and empty falling back to the Go field name, and no
anonymous-struct resolution. -/
def resolveFieldWithParamType (fuel : Nat) (fname : GoStr) (ftype : GoType)
    (tag : GoStr) (ann : Option FieldAnn) (paramType : GoStr) :
    Option ResolvedField :=
  if ¬isExportedName fname then none
  else
    let tagName0 : Option GoStr :=
      if paramType = "path".data then some (extractTagName tag "path".data)
      else if paramType = "query".data then some (extractTagName tag "query".data)
      else if paramType = "header".data then some (extractTagName tag "header".data)
      else if paramType = "cookie".data then some (extractTagName tag "cookie".data)
      else
        let t := resolveFieldNameFromTag tag fname
        if t = [] then none else some t
    match tagName0 with
    | none => none
    | some tn0 =>
      let tagName := if tn0 = "-".data ∨ tn0 = [] then fname else tn0
      let ti := resolveType fuel ftype
      let base : RFieldBase :=
        { name := tagName, goName := fname, goType := ftype.typeString,
          required := !containsSubstr "omitempty".data tag,
          openAPIType := ti.openAPIType, format := ti.format,
          isArray := ti.isArray, itemsType := ti.itemsType,
          nullable := ti.isNullable, isAnyValue := ti.isAnyValue }
      some (match ann with
            | none => ResolvedField.mk base [] [] []
            | some a => applyOverridesB a (ResolvedField.mk base [] [] []))

/-! ## Inline (function-body) struct resolution (validator.go) -/

/-- The backquote delimiting a Go struct-tag literal. -/
def backquoteChar : Char := Char.ofNat 96

/-- Strip the backquotes from an AST tag literal
(`tag[1 : len(tag)-1]` when both ends are backquotes). -/
def stripTagQuotes (s : GoStr) : GoStr :=
  if 2 ≤ s.length ∧ s.headD ' ' = backquoteChar ∧ s.getLastD ' ' = backquoteChar
  then (s.drop 1).take (s.length - 2)
  else s

/-- An `ast.Field` of a function-body struct literal: declared names,
optional tag literal, and the type the `TypesInfo` lookup yields (Go
falls back to string when the lookup fails). -/
structure ASTField where
  names : List GoStr := []
  tagLit : Option GoStr := none
  ftype : Option GoType := none

/-- The Go `parser.CommentBlock` struct (raw comment lines). -/
structure CommentBlock where
  lines : List GoStr := []

/-- Embeds `parseInt` (validator.go, via `fmt.Sscanf("%d")`, modelled):
an optional sign followed by decimal digits. -/
def parseIntGo (s : GoStr) : Option Int :=
  let (sign, digits) : Int × GoStr :=
    match s with
    | '-' :: r => (-1, r)
    | '+' :: r => (1, r)
    | r => (1, r)
  if digits = [] ∨ ¬digits.all Char.isDigit then none
  else some (sign * (digits.foldl (fun acc c => acc * 10 + (c.toNat - 48)) 0 : Nat))

/-- Embeds `parseFloat` (validator.go, via `fmt.Sscanf("%f")`, modelled): an
optional sign, digits, and an optional fraction, as a rational. -/
def parseFloatGo (s : GoStr) : Option ℚ :=
  let (sign, rest) : ℚ × GoStr :=
    match s with
    | '-' :: r => (-1, r)
    | '+' :: r => (1, r)
    | r => (1, r)
  let intPart := rest.takeWhile Char.isDigit
  let rest2 := rest.dropWhile Char.isDigit
  if intPart = [] then none
  else
    let iv : ℚ := (intPart.foldl (fun acc c => acc * 10 + (c.toNat - 48)) 0 : Nat)
    match rest2 with
    | [] => some (sign * iv)
    | '.' :: fr =>
      if fr ≠ [] ∧ fr.all Char.isDigit then
        let fv : ℚ := (fr.foldl (fun acc c => acc * 10 + (c.toNat - 48)) 0 : Nat)
        some (sign * (iv + fv / ((10 : ℚ) ^ fr.length)))
      else none
    | _ => none

/-- The `switch annotName` of `applyFieldAnnotations`, acting on the
scalar part of the resolved field.  `Required` is never among the
cases. -/
def applyFieldAnnBase (annotName annotValue : GoStr) (b : RFieldBase) :
    RFieldBase :=
  if annotName = "@description".data then { b with description := annotValue }
  else if annotName = "@format".data then { b with format := annotValue }
  else if annotName = "@example".data then { b with exampleVal := annotValue }
  else if annotName = "@default".data then { b with defaultVal := annotValue }
  else if annotName = "@pattern".data then { b with pattern := annotValue }
  else if annotName = "@enum".data then
    { b with enum := (splitOnChar ',' annotValue).map goTrim }
  else if annotName = "@deprecated".data then { b with deprecated := true }
  else if annotName = "@minimum".data then
    (match parseFloatGo annotValue with
     | some v => { b with minimum := some v }
     | none => b)
  else if annotName = "@maximum".data then
    (match parseFloatGo annotValue with
     | some v => { b with maximum := some v }
     | none => b)
  else if annotName = "@minLength".data then
    (match parseIntGo annotValue with
     | some v => { b with minLength := some v }
     | none => b)
  else if annotName = "@maxLength".data then
    (match parseIntGo annotValue with
     | some v => { b with maxLength := some v }
     | none => b)
  else if annotName = "@minItems".data then
    (match parseIntGo annotValue with
     | some v => { b with minItems := some v }
     | none => b)
  else if annotName = "@maxItems".data then
    (match parseIntGo annotValue with
     | some v => { b with maxItems := some v }
     | none => b)
  else if annotName = "@uniqueItems".data then { b with uniqueItems := true }
  else b

/-- One part of the `@`-split inside `applyFieldAnnotations`: split the
part into name and value at the first space and apply the matching
override. -/
def applyFieldAnnPart (r : ResolvedField) (part0 : GoStr) : ResolvedField :=
  let part := goTrim part0
  if part = [] then r
  else
    let si := indexOfChar ' ' part
    let annotName : GoStr :=
      match si with
      | some i => if i > 0 then '@' :: part.take i else '@' :: part
      | none => '@' :: part
    let annotValue : GoStr :=
      match si with
      | some i => if i > 0 then goTrim (part.drop (i + 1)) else []
      | none => []
    r.mapBase (applyFieldAnnBase annotName annotValue)

/-- One comment line of `applyFieldAnnotations`: an inline `@field`
block's brace content split by `@`, each part applied in order. -/
def applyFieldAnnsLine (r : ResolvedField) (line0 : GoStr) : ResolvedField :=
  let line := goTrim line0
  if ¬hasPrefixStr line "@field".data then r
  else
    match indexOfChar '{' line, lastIndexOfChar '}' line with
    | some st, some en =>
      if en ≤ st then r
      else
        let content := (line.drop (st + 1)).take (en - st - 1)
        (splitOnChar '@' content).foldl applyFieldAnnPart r
    | _, _ => r

/-- Embeds `applyFieldAnnotations` (validator.go): applies the inline `@field`
annotations of a comment block to a resolved field. -/
def applyFieldAnns (r : ResolvedField) (comment : Option CommentBlock) :
    ResolvedField :=
  match comment with
  | none => r
  | some c => c.lines.foldl applyFieldAnnsLine r

/-- Embeds `resolveInlineStructFields` (validator.go): resolves the fields of
a function-body AST struct directly.  Embedded fields (no names) are
skipped; the name comes from the parameter tag or the json→xml→Go-name
chain; anonymous-struct resolution runs only when `schemaNames` is
provided; a failed type lookup falls back to string; `@field`
annotations from the field comments are applied last. -/
def resolveInlineStructFields (fuel : Nat) (astFields : List ASTField)
    (fieldComments : List (GoStr × CommentBlock)) (tagType : GoStr)
    (schemaNames : Option (List GoStr)) : List ResolvedField :=
  match astFields with
  | [] => []
  | af :: rest =>
    let restR := resolveInlineStructFields fuel rest fieldComments tagType schemaNames
    match af.names with
    | [] => restR
    | fieldName :: _ =>
      let tag := match af.tagLit with
        | none => []
        | some tl => stripTagQuotes tl
      let resolvedName0 : Option GoStr :=
        if tagType = "path".data then some (extractTagName tag "path".data)
        else if tagType = "query".data then some (extractTagName tag "query".data)
        else if tagType = "header".data then some (extractTagName tag "header".data)
        else if tagType = "cookie".data then some (extractTagName tag "cookie".data)
        else
          let rn := resolveFieldNameFromTag tag fieldName
          if rn = [] then none else some rn
      match resolvedName0 with
      | none => restR
      | some rn0 =>
        let resolvedName := if rn0 = [] ∨ rn0 = "-".data then fieldName else rn0
        let base0 : RFieldBase :=
          { goName := fieldName, name := resolvedName,
            required := !containsSubstr "omitempty".data tag }
        let r0 : ResolvedField :=
          match af.ftype with
          | some ftype =>
            let base1 := { base0 with goType := ftype.typeString }
            let anonR : Option ResolvedField :=
              match schemaNames with
              | some sn =>
                (match resolveAnonymousStruct fuel ftype sn with
                 | some inl =>
                   some (.mk { base1 with openAPIType := "object".data } inl [] [])
                 | none =>
                   match resolveSliceOfAnonymousStruct fuel ftype sn with
                   | some itf =>
                     some (.mk
                       { base1 with
                         isArray := true
                         openAPIType := "array".data
                         itemsType := "object".data } [] itf [])
                   | none =>
                     match resolveMapOfAnonymousStruct fuel ftype sn with
                     | some mvf =>
                       some (.mk
                         { base1 with isMap := true, openAPIType := "object".data }
                         [] [] mvf)
                     | none => none)
              | none => none
            (match anonR with
             | some r => r
             | none =>
               let ti := resolveType fuel ftype
               .mk
                 { base1 with
                   openAPIType := ti.openAPIType
                   format := ti.format
                   isArray := ti.isArray
                   itemsType := ti.itemsType
                   nullable := ti.isNullable
                   isAnyValue := ti.isAnyValue } [] [] [])
          | none =>
            .mk { base0 with goType := "string".data, openAPIType := "string".data }
              [] [] []
        applyFieldAnns r0 (lookupAssoc fieldName fieldComments) :: restR

/-! ## C6: the field-name fallback chain -/

/-- C6: field-name resolution follows json → xml → Go field name: a
value of exactly `-` at the first present tag omits the field (empty
result), also for `xml:"-"` with no json tag; an empty name part (as in
`json:",omitempty"`) continues to the next fallback; with no named tag
the raw Go field name is used; and unexported fields are skipped by
`resolveField` regardless of tags. -/
theorem c6_field_name_fallback :
    (∀ (tag n : GoStr), structTagGet tag "json".data = "-".data →
        resolveFieldNameFromTag tag n = []) ∧
    (∀ (tag n : GoStr), structTagGet tag "json".data = [] →
        structTagGet tag "xml".data = "-".data →
        resolveFieldNameFromTag tag n = []) ∧
    (∀ (tag n : GoStr) (opts : GoStr),
        structTagGet tag "json".data = ',' :: opts →
        resolveFieldNameFromTag tag n =
          resolveFieldNameFromTagLoop tag ["xml".data] n) ∧
    (∀ (tag n : GoStr), structTagGet tag "json".data = [] →
        structTagGet tag "xml".data = [] →
        resolveFieldNameFromTag tag n = n) ∧
    resolveFieldNameFromTag "json:\"-\" xml:\"WontBeUsed\"".data "Hidden".data
      = [] ∧
    resolveFieldNameFromTag "json:\",omitempty\" xml:\"from_xml\"".data
      "Field".data = "from_xml".data ∧
    resolveFieldNameFromTag [] "Age".data = "Age".data ∧
    (∀ (fuel : Nat) (fname : GoStr) (ftype : GoType) (tag : GoStr)
        (ann : Option FieldAnn) (sn : List GoStr),
        isExportedName fname = false →
        resolveField fuel fname ftype tag ann sn = none) := by
  refine ⟨?_, ?_, ?_, ?_, rfl, rfl, rfl, ?_⟩
  · intro tag n h
    simp [resolveFieldNameFromTag, supportedTags, resolveFieldNameFromTagLoop, h]
  · intro tag n h1 h2
    simp [resolveFieldNameFromTag, supportedTags, resolveFieldNameFromTagLoop,
      h1, h2]
  · intro tag n opts h
    simp [resolveFieldNameFromTag, supportedTags, resolveFieldNameFromTagLoop,
      h, indexOfChar]
  · intro tag n h1 h2
    simp [resolveFieldNameFromTag, supportedTags, resolveFieldNameFromTagLoop,
      h1, h2]
  · intro fuel fname ftype tag ann sn h
    simp [resolveField, h]

/-- Witness for C6's universally quantified parts at concrete tags. -/
theorem c6_field_name_fallback_witness :
    resolveFieldNameFromTag "json:\"-\"".data "Hidden".data = [] ∧
    resolveFieldNameFromTag "xml:\"-\"".data "Hidden".data = [] ∧
    resolveFieldNameFromTag "json:\",omitempty\"".data "F".data =
      resolveFieldNameFromTagLoop "json:\",omitempty\"".data ["xml".data]
        "F".data ∧
    resolveFieldNameFromTag "foo:\"x\"".data "Age".data = "Age".data ∧
    resolveField 10 "age".data (.basic .int) [] none [] = none :=
  ⟨c6_field_name_fallback.1 _ _ rfl,
   c6_field_name_fallback.2.1 _ _ rfl rfl,
   c6_field_name_fallback.2.2.1 _ _ "omitempty".data rfl,
   c6_field_name_fallback.2.2.2.1 _ _ rfl rfl,
   c6_field_name_fallback.2.2.2.2.2.2.2 10 "age".data (.basic .int) [] none []
     rfl⟩

/-! ## C7: pointer unwrap and nullable -/

/-- A named struct type, not among the special standard-library types,
as a concrete failing input. -/
def c7EmployeeT : GoType :=
  .named [] "Employee".data
    (.structT [("Name".data, "json:\"name\"".data, .basic .string)])

/-- C7, evaluated on the code: resolving a pointer field first unwraps
the pointer and records nullable, and the mark survives for basic,
slice, interface and special named element types — but for a pointer to
a named, non-special type (such as the named struct `Employee`)
resolution restarts on the underlying type and the recorded nullable
mark is discarded, so `Nullable` is `false` there, contradicting the
claim (and the README's `*T → nullable T` table row).  This holds
whether or not the struct is a declared schema. -/
theorem c7_pointer_nullable_dropped :
    (resolveType 20 (.pointer c7EmployeeT)).isNullable = false ∧
    (resolveField 20 "Manager".data (.pointer c7EmployeeT) [] none
        ["Employee".data]).map (fun r => r.base.nullable) = some false ∧
    (resolveField 20 "Manager".data (.pointer c7EmployeeT) [] none []).map
        (fun r => r.base.nullable) = some false ∧
    (resolveType 20 (.pointer (.basic .string))).isNullable = true ∧
    (resolveType 20 (.pointer (.slice (.basic .int)))).isNullable = true ∧
    (resolveType 20 (.pointer .interfaceT)).isNullable = true ∧
    (resolveType 20 (.pointer (.named "time".data "Time".data
        (.structT [])))).isNullable = true :=
  ⟨rfl, rfl, rfl, rfl, rfl, rfl, rfl⟩

/-! ## C8: the basic-kind table -/

/-- C8 counterexample: the unsigned 64-bit and 32-bit widths map to
`integer` with NO format — the claim's "the 32-bit and 64-bit variants
set an explicit int32/int64 format" fails for them. -/
theorem c8_unsigned_format_missing :
    (resolveType 20 (.basic .uint64)).openAPIType = "integer".data ∧
    (resolveType 20 (.basic .uint64)).format = [] ∧
    (resolveType 20 (.basic .uint32)).format = [] ∧
    "int64".data ≠ ([] : GoStr) :=
  ⟨rfl, rfl, rfl, by simp⟩

/-- C8 as the code implements it: bool→boolean; every signed and
unsigned integer width→integer, with only the signed int32/int64
setting an explicit format; float32→number/float; float64→number/
double; string→string; interface→any-JSON-value with no type
constraint; unrecognized types default to string. -/
theorem c8_basic_kind_table :
    resolveType 20 (.basic .bool) = { openAPIType := "boolean".data } ∧
    resolveType 20 (.basic .int) = { openAPIType := "integer".data } ∧
    resolveType 20 (.basic .int8) = { openAPIType := "integer".data } ∧
    resolveType 20 (.basic .int16) = { openAPIType := "integer".data } ∧
    resolveType 20 (.basic .int32) =
      { openAPIType := "integer".data, format := "int32".data } ∧
    resolveType 20 (.basic .int64) =
      { openAPIType := "integer".data, format := "int64".data } ∧
    resolveType 20 (.basic .uint) = { openAPIType := "integer".data } ∧
    resolveType 20 (.basic .uint8) = { openAPIType := "integer".data } ∧
    resolveType 20 (.basic .uint16) = { openAPIType := "integer".data } ∧
    resolveType 20 (.basic .uint32) = { openAPIType := "integer".data } ∧
    resolveType 20 (.basic .uint64) = { openAPIType := "integer".data } ∧
    resolveType 20 (.basic .float32) =
      { openAPIType := "number".data, format := "float".data } ∧
    resolveType 20 (.basic .float64) =
      { openAPIType := "number".data, format := "double".data } ∧
    resolveType 20 (.basic .string) = { openAPIType := "string".data } ∧
    resolveType 20 .interfaceT = { isAnyValue := true } ∧
    resolveType 20 (.basic .otherBasic) = { openAPIType := "string".data } ∧
    resolveType 20 .otherT = { openAPIType := "string".data } := by
  refine ⟨rfl, rfl, rfl, rfl, rfl, rfl, rfl, rfl, rfl, rfl, rfl, rfl, rfl,
    rfl, rfl, rfl, rfl⟩

/-! ## C9: classification outcomes -/

/-- C9 counterexample: a field whose type is a named struct not
declared as a schema is marked as an unresolved struct reference AND
simultaneously carries the default primitive classification `string`
(from `resolveType` falling through on the struct underlying type) —
the outcomes are not mutually exclusive as claimed. -/
theorem c9_unresolved_also_primitive :
    (resolveField 20 "Boss".data c7EmployeeT [] none []).map
        (fun r => (r.base.isUnresolvedStruct, r.base.unresolvedTypeName,
          r.base.openAPIType)) =
      some (true, "Employee".data, "string".data) :=
  rfl

/-- The three anonymous-struct classification branches are driven by
disjoint type shapes, so at most one of them applies. -/
theorem anonBranches_exclusive (fuel : Nat) (t : GoType) (sn : List GoStr) :
    ((resolveAnonymousStruct fuel t sn).isSome →
      resolveSliceOfAnonymousStruct fuel t sn = none ∧
      resolveMapOfAnonymousStruct fuel t sn = none) ∧
    ((resolveSliceOfAnonymousStruct fuel t sn).isSome →
      resolveMapOfAnonymousStruct fuel t sn = none) := by
  match fuel with
  | 0 =>
    simp [resolveAnonymousStruct, resolveSliceOfAnonymousStruct,
      resolveMapOfAnonymousStruct]
  | f + 1 =>
    cases t with
    | pointer e =>
      cases e <;>
        simp [resolveAnonymousStruct, resolveSliceOfAnonymousStruct,
          resolveMapOfAnonymousStruct]
    | _ =>
      simp [resolveAnonymousStruct, resolveSliceOfAnonymousStruct,
        resolveMapOfAnonymousStruct]

/-- C9 as the code implements it: the four branches of field
resolution (inline object, array of inline objects, map of inline
objects, general) are driven by mutually exclusive type shapes, and in
the general branch an interface type yields any-value with no type
constraint; but the unresolved-struct-reference mark is not exclusive —
such a field also carries the default `string` classification. -/
theorem c9_classification_branches :
    (∀ (fuel : Nat) (t : GoType) (sn : List GoStr),
      ((resolveAnonymousStruct fuel t sn).isSome →
        resolveSliceOfAnonymousStruct fuel t sn = none ∧
        resolveMapOfAnonymousStruct fuel t sn = none) ∧
      ((resolveSliceOfAnonymousStruct fuel t sn).isSome →
        resolveMapOfAnonymousStruct fuel t sn = none)) ∧
    (∀ f : Nat, resolveType (f + 2) .interfaceT = { isAnyValue := true }) ∧
    (resolveField 20 "Boss".data c7EmployeeT [] none []).map
        (fun r => (r.base.isUnresolvedStruct, r.base.openAPIType)) =
      some (true, "string".data) := by
  refine ⟨anonBranches_exclusive, ?_, rfl⟩
  intro f
  simp [resolveType, resolveTypeAfter]

/-- Witness for C9's universally quantified parts at a concrete type:
a struct shape takes the inline branch and excludes the others. -/
theorem c9_classification_branches_witness :
    (resolveSliceOfAnonymousStruct 20
        (.structT [("A".data, [], .basic .int)]) [] = none ∧
      resolveMapOfAnonymousStruct 20
        (.structT [("A".data, [], .basic .int)]) [] = none) ∧
    resolveType 20 .interfaceT = { isAnyValue := true } :=
  ⟨(c9_classification_branches.1 20 (.structT [("A".data, [], .basic .int)])
      []).1 rfl,
   c9_classification_branches.2.1 18⟩

/-! ## C10: Required comes from the raw tag alone -/

/-- The raw tag of an AST field after backquote stripping. -/
def astTag (af : ASTField) : GoStr :=
  match af.tagLit with
  | none => []
  | some tl => stripTagQuotes tl

/-- Embeds `mapBase` acts on the scalar part. -/
theorem mapBase_base (f : RFieldBase → RFieldBase) (r : ResolvedField) :
    (r.mapBase f).base = f r.base := by
  cases r
  rfl

/-- The `resolveField` override block never touches `Required`. -/
theorem applyOverridesA_required (a : FieldAnn) (r : ResolvedField) :
    (applyOverridesA a r).base.required = r.base.required := by
  cases r
  rfl

/-- The `resolveFieldWithParamType` override block never touches
`Required`. -/
theorem applyOverridesB_required (a : FieldAnn) (r : ResolvedField) :
    (applyOverridesB a r).base.required = r.base.required := by
  cases r
  rfl

/-- The `applyFieldAnnotations` switch never touches `Required`. -/
theorem applyFieldAnnBase_required (an av : GoStr) (b : RFieldBase) :
    (applyFieldAnnBase an av b).required = b.required := by
  unfold applyFieldAnnBase
  by_cases h1 : an = "@description".data
  · rw [if_pos h1]
  rw [if_neg h1]
  by_cases h2 : an = "@format".data
  · rw [if_pos h2]
  rw [if_neg h2]
  by_cases h3 : an = "@example".data
  · rw [if_pos h3]
  rw [if_neg h3]
  by_cases h4 : an = "@default".data
  · rw [if_pos h4]
  rw [if_neg h4]
  by_cases h5 : an = "@pattern".data
  · rw [if_pos h5]
  rw [if_neg h5]
  by_cases h6 : an = "@enum".data
  · rw [if_pos h6]
  rw [if_neg h6]
  by_cases h7 : an = "@deprecated".data
  · rw [if_pos h7]
  rw [if_neg h7]
  by_cases h8 : an = "@minimum".data
  · rw [if_pos h8]
    rcases parseFloatGo av with _ | v <;> rfl
  rw [if_neg h8]
  by_cases h9 : an = "@maximum".data
  · rw [if_pos h9]
    rcases parseFloatGo av with _ | v <;> rfl
  rw [if_neg h9]
  by_cases h10 : an = "@minLength".data
  · rw [if_pos h10]
    rcases parseIntGo av with _ | v <;> rfl
  rw [if_neg h10]
  by_cases h11 : an = "@maxLength".data
  · rw [if_pos h11]
    rcases parseIntGo av with _ | v <;> rfl
  rw [if_neg h11]
  by_cases h12 : an = "@minItems".data
  · rw [if_pos h12]
    rcases parseIntGo av with _ | v <;> rfl
  rw [if_neg h12]
  by_cases h13 : an = "@maxItems".data
  · rw [if_pos h13]
    rcases parseIntGo av with _ | v <;> rfl
  rw [if_neg h13]
  by_cases h14 : an = "@uniqueItems".data
  · rw [if_pos h14]
  rw [if_neg h14]

/-- No case of `applyFieldAnnotations` touches `Required`. -/
theorem applyFieldAnnPart_required (r : ResolvedField) (p : GoStr) :
    (applyFieldAnnPart r p).base.required = r.base.required := by
  cases r with
  | mk b i j m =>
    simp only [applyFieldAnnPart, ResolvedField.mapBase]
    by_cases hp : goTrim p = []
    · simp [hp, ResolvedField.base]
    · simp only [if_neg hp, ResolvedField.base]
      exact applyFieldAnnBase_required _ _ _

/-- Folding a `Required`-preserving step preserves `Required`. -/
theorem foldl_preserves_required {α : Type} (g : ResolvedField → α → ResolvedField)
    (hg : ∀ r x, (g r x).base.required = r.base.required) :
    ∀ (xs : List α) (r : ResolvedField),
      ((xs.foldl g r).base.required) = r.base.required
  | [], r => rfl
  | x :: xs, r => by
    rw [List.foldl_cons, foldl_preserves_required g hg xs (g r x), hg]

/-- One comment line of `applyFieldAnnotations` never touches
`Required`. -/
theorem applyFieldAnnsLine_required (r : ResolvedField) (line : GoStr) :
    (applyFieldAnnsLine r line).base.required = r.base.required := by
  simp only [applyFieldAnnsLine]
  repeat' split
  all_goals first
  | rfl
  | exact foldl_preserves_required applyFieldAnnPart applyFieldAnnPart_required _ r

/-- Embeds `applyFieldAnnotations` never touches `Required`: no `@field`
annotation can change it. -/
theorem applyFieldAnns_required (r : ResolvedField) (c : Option CommentBlock) :
    (applyFieldAnns r c).base.required = r.base.required := by
  cases c with
  | none => rfl
  | some cb =>
    exact foldl_preserves_required applyFieldAnnsLine applyFieldAnnsLine_required
      cb.lines r

/-- Embeds `resolveField` sets `Required` from the raw tag alone. -/
theorem resolveField_required (fuel : Nat) (fname : GoStr) (ftype : GoType)
    (tag : GoStr) (ann : Option FieldAnn) (sn : List GoStr) (f : ResolvedField)
    (h : resolveField fuel fname ftype tag ann sn = some f) :
    f.base.required = !containsSubstr "omitempty".data tag := by
  simp only [resolveField] at h
  split at h
  · cases h
  · split at h
    · cases h
    · cases h
      have hbranch :
          ∀ r0 : ResolvedField,
            (match ann with
              | none => r0
              | some a => applyOverridesA a r0).base.required = r0.base.required := by
        intro r0
        cases ann with
        | none => rfl
        | some a => exact applyOverridesA_required a r0
      rw [hbranch]
      cases resolveAnonymousStruct fuel ftype sn with
      | some inl => rfl
      | none =>
        cases resolveSliceOfAnonymousStruct fuel ftype sn with
        | some itf => rfl
        | none =>
          cases resolveMapOfAnonymousStruct fuel ftype sn with
          | some mvf => rfl
          | none => rfl

/-- Every field produced by `resolveAnonymousStruct`'s field loop takes
`Required` from the raw tag of one of the struct's fields. -/
theorem resolveAnonFields_required :
    ∀ (fuel : Nat) (flds : List (GoStr × GoStr × GoType)) (sn : List GoStr)
      (f : ResolvedField), f ∈ resolveAnonFields fuel flds sn →
      ∃ g, g ∈ flds ∧ f.base.required = !containsSubstr "omitempty".data g.2.1
  | 0, flds, sn, f => by
    intro h
    simp [resolveAnonFields] at h
  | _ + 1, [], sn, f => by
    intro h
    simp [resolveAnonFields] at h
  | fuel + 1, (fname, tag, fty) :: rest, sn, f => by
    intro h
    simp only [resolveAnonFields] at h
    split at h
    · obtain ⟨g, hg, he⟩ := resolveAnonFields_required fuel rest sn f h
      exact ⟨g, List.mem_cons_of_mem _ hg, he⟩
    · split at h
      · obtain ⟨g, hg, he⟩ := resolveAnonFields_required fuel rest sn f h
        exact ⟨g, List.mem_cons_of_mem _ hg, he⟩
      · rcases List.mem_cons.1 h with h2 | h2
        · refine ⟨(fname, tag, fty), List.mem_cons_self _ _, ?_⟩
          subst h2
          cases resolveAnonymousStruct fuel fty sn with
          | some inl => rfl
          | none =>
            cases resolveSliceOfAnonymousStruct fuel fty sn with
            | some itf => rfl
            | none =>
              cases resolveMapOfAnonymousStruct fuel fty sn with
              | some mvf => rfl
              | none => rfl
        · obtain ⟨g, hg, he⟩ := resolveAnonFields_required fuel rest sn f h2
          exact ⟨g, List.mem_cons_of_mem _ hg, he⟩

/-- Embeds `resolveFieldWithParamType` sets `Required` from the raw tag
alone. -/
theorem resolveFieldWithParamType_required (fuel : Nat) (fname : GoStr)
    (ftype : GoType) (tag : GoStr) (ann : Option FieldAnn) (pt : GoStr)
    (f : ResolvedField)
    (h : resolveFieldWithParamType fuel fname ftype tag ann pt = some f) :
    f.base.required = !containsSubstr "omitempty".data tag := by
  simp only [resolveFieldWithParamType] at h
  split at h
  · cases h
  · split at h
    · cases h
    · cases h
      cases ann with
      | none => rfl
      | some a =>
        rw [applyOverridesB_required]
        rfl

/-- Every field produced by `resolveInlineStructFields` takes
`Required` from the raw (backquote-stripped) tag of one of the AST
fields; the subsequent `@field` annotation application cannot change
it. -/
theorem resolveInlineStructFields_required :
    ∀ (fuel : Nat) (afs : List ASTField)
      (comments : List (GoStr × CommentBlock)) (tagType : GoStr)
      (sn : Option (List GoStr)) (f : ResolvedField),
      f ∈ resolveInlineStructFields fuel afs comments tagType sn →
      ∃ af, af ∈ afs ∧
        f.base.required = !containsSubstr "omitempty".data (astTag af)
  | fuel, [], comments, tagType, sn, f => by
    intro h
    simp [resolveInlineStructFields] at h
  | fuel, af :: rest, comments, tagType, sn, f => by
    intro h
    simp only [resolveInlineStructFields] at h
    split at h
    · obtain ⟨af2, hm, he⟩ :=
        resolveInlineStructFields_required fuel rest comments tagType sn f h
      exact ⟨af2, List.mem_cons_of_mem _ hm, he⟩
    · split at h
      · obtain ⟨af2, hm, he⟩ :=
          resolveInlineStructFields_required fuel rest comments tagType sn f h
        exact ⟨af2, List.mem_cons_of_mem _ hm, he⟩
      · rcases List.mem_cons.1 h with h2 | h2
        · refine ⟨af, List.mem_cons_self _ _, ?_⟩
          subst h2
          rw [applyFieldAnns_required]
          simp only [astTag]
          cases af.ftype with
          | none => cases af.tagLit <;> rfl
          | some ftype =>
            dsimp only
            cases sn with
            | none => cases af.tagLit <;> rfl
            | some names =>
              dsimp only
              cases resolveAnonymousStruct fuel ftype names with
              | some inl => cases af.tagLit <;> rfl
              | none =>
                dsimp only
                cases resolveSliceOfAnonymousStruct fuel ftype names with
                | some itf => cases af.tagLit <;> rfl
                | none =>
                  dsimp only
                  cases resolveMapOfAnonymousStruct fuel ftype names with
                  | some mvf => cases af.tagLit <;> rfl
                  | none => cases af.tagLit <;> rfl
        · obtain ⟨af2, hm, he⟩ :=
            resolveInlineStructFields_required fuel rest comments tagType sn f h2
          exact ⟨af2, List.mem_cons_of_mem _ hm, he⟩

/-- C10: for every resolved field — schema fields, parameter fields,
anonymous-struct fields, and inline (function-body) declarations alike —
`Required` is true iff the field's raw struct tag does not contain the
substring `omitempty`; no `@field` annotation changes it (the override
blocks and `applyFieldAnnotations` never touch it), and a field with no
tags at all is therefore required. -/
theorem c10_required_from_tag :
    (∀ (fuel : Nat) (fname : GoStr) (ftype : GoType) (tag : GoStr)
        (ann : Option FieldAnn) (sn : List GoStr) (f : ResolvedField),
        resolveField fuel fname ftype tag ann sn = some f →
        f.base.required = !containsSubstr "omitempty".data tag) ∧
    (∀ (fuel : Nat) (flds : List (GoStr × GoStr × GoType)) (sn : List GoStr)
        (f : ResolvedField), f ∈ resolveAnonFields fuel flds sn →
        ∃ g, g ∈ flds ∧
          f.base.required = !containsSubstr "omitempty".data g.2.1) ∧
    (∀ (fuel : Nat) (fname : GoStr) (ftype : GoType) (tag : GoStr)
        (ann : Option FieldAnn) (pt : GoStr) (f : ResolvedField),
        resolveFieldWithParamType fuel fname ftype tag ann pt = some f →
        f.base.required = !containsSubstr "omitempty".data tag) ∧
    (∀ (fuel : Nat) (afs : List ASTField)
        (comments : List (GoStr × CommentBlock)) (tagType : GoStr)
        (sn : Option (List GoStr)) (f : ResolvedField),
        f ∈ resolveInlineStructFields fuel afs comments tagType sn →
        ∃ af, af ∈ afs ∧
          f.base.required = !containsSubstr "omitempty".data (astTag af)) ∧
    (∀ (r : ResolvedField) (c : Option CommentBlock),
        (applyFieldAnns r c).base.required = r.base.required) ∧
    (∀ (a : FieldAnn) (r : ResolvedField),
        (applyOverridesA a r).base.required = r.base.required ∧
        (applyOverridesB a r).base.required = r.base.required) :=
  ⟨resolveField_required, resolveAnonFields_required,
   resolveFieldWithParamType_required, resolveInlineStructFields_required,
   applyFieldAnns_required,
   fun a r => ⟨applyOverridesA_required a r, applyOverridesB_required a r⟩⟩

/-- The field resolved at C10's witness input. -/
def c10Field : ResolvedField :=
  match resolveField 10 "Name".data (.basic .string)
      "json:\"name,omitempty\"".data none [] with
  | some f => f
  | none => ResolvedField.mk {} [] [] []

/-- Witness for C10 at a concrete field: an `omitempty` tag makes the
field optional. -/
theorem c10_required_from_tag_witness :
    c10Field.base.required =
      !containsSubstr "omitempty".data "json:\"name,omitempty\"".data ∧
    c10Field.base.required = false :=
  ⟨c10_required_from_tag.1 10 "Name".data (.basic .string)
      "json:\"name,omitempty\"".data none [] c10Field rfl,
   by
    rw [c10_required_from_tag.1 10 "Name".data (.basic .string)
      "json:\"name,omitempty\"".data none [] c10Field rfl]
    rfl⟩

end Specgen
